import Mathlib

/-!
Verification of the scrape/stream/upload pipeline of the `ai-search-frontend`
repository, shallowly embedded in Lean.

The embedding covers:
* `src/lib/shopify-scraper.ts` — `extractDomain`, `getShopifyProductUrl`,
  `buildProductsUrl`, `scrapeShopifyStore`, `convertToJsonl`, `stripHtml`,
  `isValidShopifyDomain`;
* `src/app/api/shopify/delete-products/route.ts` (scrape-stream handler) —
  `fetchWithRetry` and the streaming pagination loop with its event protocol;
* `src/lib/product-uploader.ts` — `uploadProducts` and its progress
  accumulator.

HTTP is modelled by response oracles (`Nat → HttpResponse` indexed by page
and/or attempt); timed sleeps are recorded as data (the list of waited
milliseconds) where a claim mentions them and dropped otherwise.  JavaScript
strings are modelled by `String`/`List Char`; absent/`null`/`undefined`
values by `Option`; a falsy string is the empty string.
-/

set_option autoImplicit false
set_option maxRecDepth 8192

namespace AiSearch

/-! ## Data model (`src/lib/product-uploader.ts`, interfaces) -/

/-- Model of `ScrapedVariant` from `product-uploader.ts` (the `featured_image` field,
which is never read by the verified code, is omitted). -/
structure ScrapedVariant where
  id : Nat
  title : String
  option1 : Option String
  option2 : Option String
  option3 : Option String
  sku : Option String
  requires_shipping : Bool
  taxable : Bool
  available : Bool
  price : String
  grams : Nat
  compare_at_price : Option String
  position : Nat
  product_id : Nat
  created_at : String
  updated_at : String
  deriving Repr, DecidableEq

/-- Model of `ScrapedImage` from `product-uploader.ts`. -/
structure ScrapedImage where
  id : Nat
  created_at : String
  position : Nat
  updated_at : String
  product_id : Nat
  variant_ids : List Nat
  src : String
  width : Nat
  height : Nat
  alt : Option String
  deriving Repr, DecidableEq

/-- Model of `ScrapedProduct` from `product-uploader.ts`.  The `url` field is not
declared in the TypeScript interface but is attached at runtime by the
scraper (`product.url = getShopifyProductUrl(...)`) and read by
`convertToJsonl`; it is therefore part of the record here. -/
structure ScrapedProduct where
  id : Nat
  title : String
  handle : String
  body_html : String
  published_at : String
  created_at : String
  updated_at : String
  vendor : String
  product_type : String
  tags : List String
  variants : List ScrapedVariant
  images : List ScrapedImage
  url : String
  deriving Repr, DecidableEq

/-! ## Domain normalizer (`shopify-scraper.ts`, `extractDomain`) -/

/-- The regex `^https?:\/\//` applied by `input.replace(..., "")`: drop a
leading `https://` or `http://`. -/
def stripSchemeChars : List Char → List Char
  | 'h' :: 't' :: 't' :: 'p' :: 's' :: ':' :: '/' :: '/' :: rest => rest
  | 'h' :: 't' :: 't' :: 'p' :: ':' :: '/' :: '/' :: rest => rest
  | cs => cs

/-- Model of `domain.split(sep)[0]`: the characters before the first occurrence of
`sep` (the whole string when `sep` does not occur). -/
def takeBefore (sep : Char) (cs : List Char) : List Char :=
  cs.takeWhile (fun c => c ≠ sep)

/-- The regex `^www\./` applied by `domain.replace(..., "")`: drop a leading
`www.`. -/
def stripWwwChars : List Char → List Char
  | 'w' :: 'w' :: 'w' :: '.' :: rest => rest
  | cs => cs

/-- Model of `extractDomain` (`shopify-scraper.ts` lines 19–37): strip the scheme,
cut at the first `/`, cut at the first `:`, strip a leading `www.`.  The
TypeScript body is wrapped in `try/catch` returning the input unchanged, but
none of the four operations can throw, so the function is total here. -/
def extractDomain (input : String) : String :=
  ⟨stripWwwChars (takeBefore ':' (takeBefore '/' (stripSchemeChars input.data)))⟩

/-! ## Domain validator (`shopify-scraper.ts`, `isValidShopifyDomain`) -/

/-- Character class `[a-zA-Z0-9-_.]` of the validator regex. -/
def isMidChar (c : Char) : Bool :=
  c.isAlphanum || c = '-' || c = '_' || c = '.'

/-- The part of the validator regex before the final `\.[a-zA-Z]{2,}`:
`[a-zA-Z0-9][a-zA-Z0-9-_.]*[a-zA-Z0-9]` (at least two characters, first and
last alphanumeric, everything drawn from the middle class). -/
def goodPre (pre : List Char) : Bool :=
  2 ≤ pre.length && pre.all isMidChar &&
    (pre.head?.elim false Char.isAlphanum) &&
    (pre.getLast?.elim false Char.isAlphanum)

/-- The final `\.[a-zA-Z]{2,}$` of the validator regex: a dot followed by
two or more letters, ending the string. -/
def tldPart : List Char → Bool
  | '.' :: tld => 2 ≤ tld.length && tld.all Char.isAlpha
  | _ => false

/-- Full-match test of `^[a-zA-Z0-9][a-zA-Z0-9-_.]*[a-zA-Z0-9]\.[a-zA-Z]{2,}$`
(`shopify-scraper.ts` line 334): the string splits as `pre ++ "." ++ tld`
with `pre` as above and `tld` two or more letters.  Since `regex.test` only
asks for existence of a match, the backtracking order of the `*` is
irrelevant and an existential split is an exact model. -/
def matchesDomainPattern (s : String) : Bool :=
  (List.range s.data.length).any fun k =>
    goodPre (s.data.take k) && tldPart (s.data.drop k)

/-- Model of `isValidShopifyDomain` (`shopify-scraper.ts` lines 326–337): reject empty
or all-whitespace input, then test the normalized domain against the
pattern. -/
def isValidShopifyDomain (domain : String) : Bool :=
  if domain = "" ∨ domain.trim.length = 0 then false
  else matchesDomainPattern (extractDomain domain)

/-- Optional `:port` decoration. -/
def portStr : Option String → String
  | some p => ":" ++ p
  | none => ""

/-- Optional `/path` decoration. -/
def pathStr : Option String → String
  | some q => "/" ++ q
  | none => ""

/-- Decoration of a hostname as quantified by the spec: a scheme, an optional
`www.` prefix, an optional `:port` suffix and an optional trailing
`/path`. -/
def decorate (https : Bool) (www : Bool) (host : String)
    (port : Option String) (path : Option String) : String :=
  (if https then "https://" else "http://") ++
    (if www then "www." else "") ++ host ++ portStr port ++ pathStr path

/-! ## HTML stripping (`shopify-scraper.ts`, `stripHtml`)

All recursions below run on an explicit fuel equal to the input length so
that every definition is structural and reduces by `rfl`/`decide`. -/

/-- JavaScript regex whitespace class, by code point: tab through carriage
return, space, no-break space, ogham space, U+2000 through U+200A, line and
paragraph separators, narrow no-break space, medium mathematical space,
ideographic space, byte-order mark. -/
def isJsSpace (c : Char) : Bool :=
  c.toNat = 9 || c.toNat = 10 || c.toNat = 11 || c.toNat = 12 ||
    c.toNat = 13 || c.toNat = 32 || c.toNat = 0xA0 || c.toNat = 0x1680 ||
    (0x2000 ≤ c.toNat && c.toNat ≤ 0x200A) || c.toNat = 0x2028 ||
    c.toNat = 0x2029 || c.toNat = 0x202F || c.toNat = 0x205F ||
    c.toNat = 0x3000 || c.toNat = 0xFEFF

/-- Model of `html.replace(/<[^>]*>/g, " ")`.  A match starts at a `<` and extends to
the first following `>`; when no `>` remains there is no further match and
the rest of the string is kept verbatim. -/
def stripTagsGo : Nat → List Char → List Char
  | 0, cs => cs
  | _ + 1, [] => []
  | fuel + 1, '<' :: rest =>
    if rest.any (fun c => c = '>') then
      ' ' :: stripTagsGo fuel ((rest.dropWhile (fun c => c ≠ '>')).tail)
    else
      '<' :: rest
  | fuel + 1, c :: rest => c :: stripTagsGo fuel rest

/-- Model of `text.replace(/\s+/g, " ")`: collapse every run of whitespace to one
space. -/
def collapseWsGo : Nat → List Char → List Char
  | 0, cs => cs
  | _ + 1, [] => []
  | fuel + 1, c :: rest =>
    if isJsSpace c then ' ' :: collapseWsGo fuel (rest.dropWhile isJsSpace)
    else c :: collapseWsGo fuel rest

/-- Model of `text.replace(/pat/g, rep)` for a literal pattern `p0 :: prest`:
left-to-right, non-overlapping, the replacement is not rescanned. -/
def replaceAllGo (p0 : Char) (prest : List Char) (rep : List Char) :
    Nat → List Char → List Char
  | 0, cs => cs
  | _ + 1, [] => []
  | fuel + 1, c :: rest =>
    if (p0 :: prest).isPrefixOf (c :: rest) then
      rep ++ replaceAllGo p0 prest rep fuel ((c :: rest).drop (prest.length + 1))
    else
      c :: replaceAllGo p0 prest rep fuel rest

/-- One global literal replacement (pattern assumed nonempty, as for all six
entities below). -/
def replaceAll (pat rep : String) (cs : List Char) : List Char :=
  match pat.data with
  | [] => cs
  | p0 :: prest => replaceAllGo p0 prest rep.data cs.length cs

/-- Model of `text.trim()`: drop whitespace from both ends. -/
def trimChars (cs : List Char) : List Char :=
  ((cs.dropWhile isJsSpace).reverse.dropWhile isJsSpace).reverse

/-- Model of `stripHtml` (`shopify-scraper.ts` lines 278–297): remove tags, collapse
whitespace runs, decode the six named entities in source order, trim. -/
def stripHtml (html : String) : String :=
  let t1 := stripTagsGo html.data.length html.data
  let t2 := collapseWsGo t1.length t1
  let t3 := replaceAll "&nbsp;" " " t2
  let t4 := replaceAll "&amp;" "&" t3
  let t5 := replaceAll "&lt;" "<" t4
  let t6 := replaceAll "&gt;" ">" t5
  let t7 := replaceAll "&quot;" "\"" t6
  let t8 := replaceAll "&#039;" "'" t7
  let t9 := replaceAll "&apos;" "'" t8
  ⟨trimChars t9⟩

/-! ## `parseFloat` model and JSONL conversion (`convertToJsonl`) -/

/-- Numeric value of a digit run. -/
def digitsToNat (ds : List Char) : Nat :=
  ds.foldl (fun a c => a * 10 + (c.toNat - 48)) 0

/-- Decidable part of the `parseFloat` model: leading whitespace, an optional
sign, integer digits, an optional `.` and fraction digits (trailing garbage
ignored).  Returns `(negative, integerPart, fractionValue, fractionLength)`,
or `none` when no digit is found (`NaN`). -/
def parseFloatParts (s : String) : Option (Bool × Nat × Nat × Nat) :=
  let cs := s.data.dropWhile isJsSpace
  let signed : Bool × List Char :=
    match cs with
    | '-' :: r => (true, r)
    | '+' :: r => (false, r)
    | _ => (false, cs)
  let ip := signed.2.takeWhile Char.isDigit
  let rest := signed.2.dropWhile Char.isDigit
  let fp :=
    match rest with
    | '.' :: r => r.takeWhile Char.isDigit
    | _ => []
  if ip = [] ∧ fp = [] then none
  else some (signed.1, digitsToNat ip, digitsToNat fp, fp.length)

/-- JavaScript `parseFloat` restricted to plain decimal numerals (optional
sign, integer part, optional fraction; trailing garbage ignored), which is
the shape of Shopify price strings.  `none` models `NaN` (no leading
numeral).  Exponent notation and `Infinity` are outside the modelled
fragment. -/
def parseFloatModel (s : String) : Option Rat :=
  (parseFloatParts s).map fun parts =>
    let mag : Rat :=
      (parts.2.1 : Rat) + (parts.2.2.1 : Rat) / ((10 : Rat) ^ parts.2.2.2)
    if parts.1 then -mag else mag

/-- One line of the JSONL export.  `price = none` models the `NaN` that
`parseFloat` yields on a non-numeric price string; the `JSON.stringify`
serialization of the record and the `join("\n")` of the lines are projected
away (one record here = one line of the output). -/
structure JsonlObject where
  product_id : String
  title : String
  text : String
  price : Option Rat
  url : String
  image : String
  in_stock : Bool
  category : String
  tags : List String
  deriving Repr, DecidableEq

/-- JavaScript `x || ""` on strings (identity, since the only falsy string is
`""`). -/
def jsOrEmpty (s : String) : String :=
  if s = "" then "" else s

/-- The record built for one product by `convertToJsonl`
(`shopify-scraper.ts` lines 238–271). -/
def toJsonlObject (p : ScrapedProduct) : JsonlObject :=
  let price : Option Rat :=
    match p.variants.head? with
    | some v => if v.price = "" then some 0 else parseFloatModel v.price
    | none => some 0
  let image : String :=
    match p.images.head? with
    | some img => jsOrEmpty img.src
    | none => ""
  let in_stock : Bool := p.variants.any (fun v => v.available) || false
  let category : String := jsOrEmpty p.product_type
  { product_id := toString p.id
    title := jsOrEmpty p.title
    text := if p.body_html = "" then "" else stripHtml p.body_html
    price := price
    url := jsOrEmpty p.url
    image := image
    in_stock := in_stock
    category := category
    tags := p.tags }

/-- Model of `convertToJsonl` (`shopify-scraper.ts` lines 234–273), at the record
level: one `JsonlObject` per product, in order.  The `storeDomain` parameter
of the TypeScript function is unused there as well. -/
def convertToJsonl (products : List ScrapedProduct) : List JsonlObject :=
  products.map toJsonlObject

/-- Concrete variant used by witnesses. -/
def c8Variant : ScrapedVariant :=
  { id := 11, title := "Default", option1 := none, option2 := none,
    option3 := none, sku := some "SKU1", requires_shipping := true,
    taxable := true, available := true, price := "19.99", grams := 100,
    compare_at_price := none, position := 1, product_id := 1,
    created_at := "", updated_at := "" }

/-- Concrete image used by witnesses. -/
def c8Image : ScrapedImage :=
  { id := 21, created_at := "", position := 1, updated_at := "",
    product_id := 1, variant_ids := [], src := "https://cdn.example.com/img.png",
    width := 10, height := 10, alt := none }

/-- Concrete product used by witnesses. -/
def c8Product : ScrapedProduct :=
  { id := 1, title := "Tee", handle := "tee",
    body_html := "<p>Hello&nbsp;World</p>", published_at := "",
    created_at := "", updated_at := "", vendor := "V",
    product_type := "Shirts", tags := ["a", "b"], variants := [c8Variant],
    images := [c8Image], url := "https://example.com/products/tee" }

/-! ## URL construction (`buildProductsUrl` and the two page-URL forms) -/

/-- Model of `s.includes(pat)`: some suffix of `s` starts with `pat`. -/
def containsSub (s pat : String) : Bool :=
  (List.range (s.data.length + 1)).any fun i => pat.data.isPrefixOf (s.data.drop i)

/-- Model of `buildProductsUrl` (`shopify-scraper.ts` lines 55–65).  Both branches of
the `myshopify.com` test return the same string; the branch is kept to
mirror the source. -/
def buildProductsUrl (domain : String) : String :=
  let cleanDomain := extractDomain domain
  if containsSub cleanDomain "myshopify.com" then
    "https://" ++ cleanDomain ++ "/products.json?limit=250"
  else
    "https://" ++ cleanDomain ++ "/products.json?limit=250"

/-- URL requested for page `page` by the non-streaming `scrapeShopifyStore`
(line 90: `page === 1 ? baseUrl : baseUrl + "&page=" + page`), with
`baseUrl = buildProductsUrl(extractDomain(domain))` as in lines 80–81. -/
def nonStreamPageUrl (domain : String) (page : Nat) : String :=
  let baseUrl := buildProductsUrl (extractDomain domain)
  if page = 1 then baseUrl else baseUrl ++ "&page=" ++ toString page

/-- URL requested for page `page` by the scrape-stream route (route line 143:
`url = baseUrl + "?limit=250&page=" + page`), with
`baseUrl = buildProductsUrl(extractDomain(domain))` as in lines 129–130. -/
def streamPageUrl (domain : String) (page : Nat) : String :=
  let baseUrl := buildProductsUrl (extractDomain domain)
  baseUrl ++ "?limit=250&page=" ++ toString page

/-! ## HTTP model -/

/-- Parsed JSON body of a page response: either an object with a `products`
array, or anything else (`!data.products || !Array.isArray(data.products)`).
A body that fails to parse at all makes `response.json()` throw, which every
caller funnels into the same terminal failure path as an invalid shape, so
it is folded into `malformed`. -/
inductive ResponseBody where
  | productsList (products : List ScrapedProduct)
  | malformed
  deriving Repr, DecidableEq

/-- One HTTP response: status, status text, optional numeric `Retry-After`
header (seconds, as read by `parseInt`), parsed body. -/
structure HttpResponse where
  status : Nat
  statusText : String
  retryAfter : Option Nat
  body : ResponseBody
  deriving Repr, DecidableEq

/-- Model of `response.ok`: status in the 2xx range. -/
def isOkStatus (s : Nat) : Prop :=
  200 ≤ s ∧ s < 300

instance (s : Nat) : Decidable (isOkStatus s) := by
  unfold isOkStatus; infer_instance

/-! ## `getShopifyProductUrl` and URL annotation -/

/-- Model of `getShopifyProductUrl` (`shopify-scraper.ts` lines 45–50): throws
`"Invalid product object"` when the handle is falsy (`!product.handle`),
otherwise returns the canonical product URL.  The `!product` guard has no
counterpart here, since a `ScrapedProduct` value cannot be `null`. -/
def getShopifyProductUrl (product : ScrapedProduct) (domain : String) :
    Except String String :=
  if product.handle = "" then Except.error "Invalid product object"
  else Except.ok ("https://" ++ domain ++ "/products/" ++ product.handle)

/-- A product with its derived URL attached. -/
def withUrl (domain : String) (p : ScrapedProduct) : ScrapedProduct :=
  { p with url := "https://" ++ domain ++ "/products/" ++ p.handle }

/-- The `data.products.forEach(product => product.url = ...)` annotation
pass: sets every URL, or throws at the first product whose handle is falsy
(aborting the whole page). -/
def annotateProducts (domain : String) :
    List ScrapedProduct → Except String (List ScrapedProduct)
  | [] => Except.ok []
  | p :: rest =>
    match getShopifyProductUrl p domain with
    | Except.error e => Except.error e
    | Except.ok u =>
      match annotateProducts domain rest with
      | Except.error e => Except.error e
      | Except.ok rest' => Except.ok ({ p with url := u } :: rest')

/-! ## Non-streaming scraper (`scrapeShopifyStore`, lines 70–152)

The page fetch is abstracted by an oracle `src : Nat → HttpResponse` giving
the response for each page number (the non-streaming scraper issues exactly
one plain `fetch` per page).  Alongside the result, the list of page numbers
actually requested is recorded. -/

/-- The TypeScript `ScrapeResult` shape. -/
structure ScrapeResult where
  success : Bool
  products : Option (List ScrapedProduct)
  count : Option Nat
  error : Option String
  storeDomain : Option String
  deriving Repr, DecidableEq

/-- The `while (hasMore && (includeAll || allProducts.length < maxProducts))`
loop of `scrapeShopifyStore`.  The fuel only bounds the recursion: the
page-100 safety break (line 134) exits the loop before more than 100
iterations can happen, so the top-level fuel of 100 is never exhausted.
A `< 250` page or an empty page ends the loop exactly as lines 115–129;
any thrown error is the `Except.error` case (caught at lines 146–151). -/
def scrapeGo (src : Nat → HttpResponse) (domain : String)
    (includeAll : Bool) (maxProducts : Nat) :
    Nat → Nat → List ScrapedProduct → List Nat →
      Except String (List ScrapedProduct) × List Nat
  | 0, _, acc, reqs => (Except.ok acc, reqs)
  | fuel + 1, page, acc, reqs =>
    if includeAll ∨ acc.length < maxProducts then
      let reqs' := reqs ++ [page]
      let r := src page
      if isOkStatus r.status then
        match r.body with
        | ResponseBody.malformed =>
          (Except.error "Invalid response format from store", reqs')
        | ResponseBody.productsList ps =>
          if ps.length = 0 then (Except.ok acc, reqs')
          else
            match annotateProducts domain ps with
            | Except.error e => (Except.error e, reqs')
            | Except.ok ps' =>
              let acc' := acc ++ ps'
              if ps.length < 250 then (Except.ok acc', reqs')
              else if 100 < page + 1 then (Except.ok acc', reqs')
              else scrapeGo src domain includeAll maxProducts fuel (page + 1) acc' reqs'
      else if r.status = 404 then
        (Except.error "Store not found. Make sure the domain is correct.", reqs')
      else
        (Except.error ("Failed to fetch products: " ++ toString r.status ++ " " ++
          r.statusText), reqs')
    else (Except.ok acc, reqs)

/-- Model of `scrapeShopifyStore` with its default options
(`maxProducts = 250000`, `includeAll = true`). -/
def scrapeShopifyStore (src : Nat → HttpResponse) (domain : String) :
    ScrapeResult × List Nat :=
  let cleanDomain := extractDomain domain
  match scrapeGo src cleanDomain true 250000 100 1 [] [] with
  | (Except.ok ps, reqs) =>
    ({ success := true, products := some ps, count := some ps.length,
       error := none, storeDomain := some cleanDomain }, reqs)
  | (Except.error e, reqs) =>
    ({ success := false, products := none, count := none,
       error := some e, storeDomain := none }, reqs)

/-! ## `fetchWithRetry` (route lines 62–103)

The network is an oracle `resp : Nat → Except String HttpResponse` giving,
for each attempt number, either the response or the message of the error
thrown by `fetch`.  The result carries the outcome and the list of waited
delays in milliseconds, in order (each `setTimeout` sleep of the retry
loop). -/

structure RetryResult where
  outcome : Except String HttpResponse
  waits : List Nat
  deriving Repr

/-- The `for (attempt = 0; attempt < maxRetries; attempt++)` body.  `rem` is
the number of attempts still allowed, so the current attempt number is
`maxRetries - rem`.  On 429 the wait is `Retry-After * 1000` when the header
is present, else `initialDelay * 2 ^ attempt`; the last attempt returns the
429 response itself (the `if (attempt < maxRetries - 1)` guard).  On a
thrown fetch error the loop keeps the message as `lastError`, waits
`initialDelay * 2 ^ attempt` unless on the last attempt, and when the loop
ends throws `lastError` (line 102). -/
def fetchWithRetryGo (resp : Nat → Except String HttpResponse)
    (maxRetries initialDelay : Nat) :
    Nat → Option String → List Nat → RetryResult
  | 0, lastError, waits =>
    ⟨Except.error (lastError.getD "Failed to fetch after multiple retries"), waits⟩
  | rem + 1, lastError, waits =>
    let attempt := maxRetries - (rem + 1)
    match resp attempt with
    | Except.ok r =>
      if r.status = 429 then
        let waitTime :=
          match r.retryAfter with
          | some secs => secs * 1000
          | none => initialDelay * 2 ^ attempt
        if attempt < maxRetries - 1 then
          fetchWithRetryGo resp maxRetries initialDelay rem lastError
            (waits ++ [waitTime])
        else ⟨Except.ok r, waits⟩
      else ⟨Except.ok r, waits⟩
    | Except.error e =>
      if attempt < maxRetries - 1 then
        fetchWithRetryGo resp maxRetries initialDelay rem (some e)
          (waits ++ [initialDelay * 2 ^ attempt])
      else fetchWithRetryGo resp maxRetries initialDelay rem (some e) waits

/-- Model of `fetchWithRetry(url, maxRetries, initialDelay)`; the defaults at the call
site are `maxRetries = 5`, `initialDelay = 2000`. -/
def fetchWithRetry (resp : Nat → Except String HttpResponse)
    (maxRetries initialDelay : Nat) : RetryResult :=
  fetchWithRetryGo resp maxRetries initialDelay maxRetries none []

/-! ## Scrape-stream events (route lines 122–262) -/

/-- The tagged union written as `data:` frames by `sendUpdate`. -/
inductive ScrapeEvent where
  | start (domain : String)
  | fetching (page : Nat) (total : Nat)
  | progress (page : Nat) (fetched : Nat) (total : Nat)
  | waiting (delay : Nat) (page : Nat) (total : Nat)
  | warning (message : String)
  | complete (count : Nat) (storeDomain : String)
  | products (chunk : List ScrapedProduct) (chunkIndex : Nat) (totalChunks : Nat)
  | done
  | error (message : String)
  deriving Repr, DecidableEq

/-- Warning text of route lines 154–157 (400 on a page past the first). -/
def warn400Msg (page total : Nat) : String :=
  "Received 400 error on page " ++ toString page ++
    ". Likely reached pagination limit. Stopping with " ++ toString total ++
    " products."

/-- Warning text of route lines 215–218 (page count reached 100). -/
def warn100Msg (page total : Nat) : String :=
  "Reached page " ++ toString page ++
    ". Shopify may have pagination limits. Total products: " ++ toString total

/-- Warning text of route lines 224–227 (safety stop past page 150). -/
def warnStopMsg (page total : Nat) : String :=
  "Stopping at page " ++ toString page ++ " for safety. Total products: " ++
    toString total

/-- Error text of route lines 161–163. -/
def fetchFailMsg (status : Nat) (statusText : String) : String :=
  "Failed to fetch products: " ++ toString status ++ " " ++ statusText

/-- The `products` chunks of route lines 240–249: slices of 100, with
running chunk index and the fixed total count `⌈n / 100⌉`. -/
def productChunksGo (all : List ScrapedProduct) (total : Nat) :
    Nat → Nat → List ScrapeEvent
  | _, 0 => []
  | idx, k + 1 =>
    ScrapeEvent.products ((all.drop (idx * 100)).take 100) idx total ::
      productChunksGo all total (idx + 1) k

/-- Number of product chunks, `Math.ceil(n / 100)`. -/
def numChunks (n : Nat) : Nat :=
  (n + 99) / 100

/-- The tail of every successful stream (route lines 232–251): the
`complete` event, the `products` chunks, then `done`. -/
def finishEvents (all : List ScrapedProduct) (storeDomain : String) :
    List ScrapeEvent :=
  ScrapeEvent.complete all.length storeDomain ::
    productChunksGo all (numChunks all.length) 0 (numChunks all.length) ++
      [ScrapeEvent.done]

/-- Events emitted between the `progress` event of one page and the next
iteration (route lines 192–229): the `waiting` event when more pages follow
(`hasMore`, i.e. the page was not short, since `delayBetweenPages = 3000 >
0`), the page-100 advisory warning, and the page-150 safety-stop warning.
`len` is the fetched page's size, `page'` the incremented page number. -/
def stepTail (len page' total : Nat) : List ScrapeEvent :=
  (if len < 250 then []
   else [ScrapeEvent.waiting 3000 page' total]) ++
  (if 100 ≤ page' then [ScrapeEvent.warning (warn100Msg page' total)]
   else []) ++
  (if 150 < page' then [ScrapeEvent.warning (warnStopMsg page' total)]
   else [])

/-- The `while (hasMore)` loop of the scrape-stream route (lines 140–230)
followed by the completion block, returning all events emitted from the
current iteration on, plus the accumulated list of requested page numbers.
`f page attempt` is the network oracle handed to `fetchWithRetry`.  Fuel
only bounds the recursion; the `page > 150` safety break keeps the iteration
count at 150 at most, so the top-level fuel of 150 is never exhausted (fuel
exhaustion is mapped to the same clean stop as the safety break).  Thrown
errors (404, non-retryable statuses, malformed bodies, a falsy product
handle, retry exhaustion) all land in the `catch` of lines 253–260, which
emits a single `error` event and closes the stream. -/
def streamGo (f : Nat → Nat → Except String HttpResponse) (d : String) :
    Nat → Nat → List ScrapedProduct → List Nat → List ScrapeEvent × List Nat
  | 0, _, acc, reqs => (finishEvents acc d, reqs)
  | fuel + 1, page, acc, reqs =>
    let fe := ScrapeEvent.fetching page acc.length
    let reqs' := reqs ++ [page]
    match (fetchWithRetry (f page) 5 2000).outcome with
    | Except.error e => ([fe, ScrapeEvent.error e], reqs')
    | Except.ok r =>
      if isOkStatus r.status then
        match r.body with
        | ResponseBody.malformed =>
          ([fe, ScrapeEvent.error "Invalid response format from store"], reqs')
        | ResponseBody.productsList ps =>
          if ps.length = 0 then (fe :: finishEvents acc d, reqs')
          else
            match annotateProducts d ps with
            | Except.error e => ([fe, ScrapeEvent.error e], reqs')
            | Except.ok ps' =>
              let acc' := acc ++ ps'
              let pe := ScrapeEvent.progress page ps.length acc'.length
              let page' := page + 1
              let tail := stepTail ps.length page' acc'.length
              if ps.length < 250 ∨ 150 < page' then
                (fe :: pe :: (tail ++ finishEvents acc' d), reqs')
              else
                let rest := streamGo f d fuel page' acc' reqs'
                (fe :: pe :: (tail ++ rest.1), rest.2)
      else
        if r.status = 404 then
          ([fe, ScrapeEvent.error "Store not found. Make sure the domain is correct."],
            reqs')
        else if r.status = 400 ∧ 1 < page then
          (fe :: ScrapeEvent.warning (warn400Msg page acc.length) ::
            finishEvents acc d, reqs')
        else
          ([fe, ScrapeEvent.error (fetchFailMsg r.status r.statusText)], reqs')

/-- One full run of the scrape-stream endpoint for a given domain: the
`start` event, then the loop from page 1 with empty accumulator. -/
def scrapeStreamRun (f : Nat → Nat → Except String HttpResponse)
    (domain : String) : List ScrapeEvent × List Nat :=
  let d := extractDomain domain
  let run := streamGo f d 150 1 [] []
  (ScrapeEvent.start d :: run.1, run.2)

/-- A per-page oracle that never throws and answers every attempt with the
same response: the behaviour of a deterministic mock source. -/
def pageSource (resp : Nat → HttpResponse) :
    Nat → Nat → Except String HttpResponse :=
  fun page _ => Except.ok (resp page)

/-- A product whose handle is falsy (the empty string). -/
def badHandleProduct : ScrapedProduct :=
  { c8Product with handle := "" }

/-- Page oracle answering 250/250/10 products per page, all with an empty
handle. -/
def c1BadSource : Nat → HttpResponse :=
  fun n =>
    if n = 1 then
      { status := 200, statusText := "OK", retryAfter := none,
        body := ResponseBody.productsList (List.replicate 250 badHandleProduct) }
    else if n = 2 then
      { status := 200, statusText := "OK", retryAfter := none,
        body := ResponseBody.productsList (List.replicate 250 badHandleProduct) }
    else if n = 3 then
      { status := 200, statusText := "OK", retryAfter := none,
        body := ResponseBody.productsList (List.replicate 10 badHandleProduct) }
    else
      { status := 200, statusText := "OK", retryAfter := none,
        body := ResponseBody.productsList [] }

/-- Page oracle answering 250/250/10 valid products per page. -/
def c1GoodSource : Nat → HttpResponse :=
  fun n =>
    if n = 1 then
      { status := 200, statusText := "OK", retryAfter := none,
        body := ResponseBody.productsList (List.replicate 250 c8Product) }
    else if n = 2 then
      { status := 200, statusText := "OK", retryAfter := none,
        body := ResponseBody.productsList (List.replicate 250 c8Product) }
    else if n = 3 then
      { status := 200, statusText := "OK", retryAfter := none,
        body := ResponseBody.productsList (List.replicate 10 c8Product) }
    else
      { status := 200, statusText := "OK", retryAfter := none,
        body := ResponseBody.productsList [] }

/-- Page oracle answering one full valid page and then HTTP 400. -/
def c4Source : Nat → HttpResponse :=
  fun n =>
    if n = 1 then
      { status := 200, statusText := "OK", retryAfter := none,
        body := ResponseBody.productsList (List.replicate 250 c8Product) }
    else
      { status := 400, statusText := "Bad Request", retryAfter := none,
        body := ResponseBody.malformed }

/-- Pages of `c4Source`, as a page-indexed product-list function. -/
def c4Pages : Nat → List ScrapedProduct :=
  fun _ => List.replicate 250 c8Product

/-- Concrete 429 response with `Retry-After: 1`, used by witnesses. -/
def c3limited : HttpResponse :=
  { status := 429, statusText := "Too Many Requests", retryAfter := some 1,
    body := ResponseBody.malformed }

/-- Concrete 200 response, used by witnesses. -/
def c3ok : HttpResponse :=
  { status := 200, statusText := "OK", retryAfter := none,
    body := ResponseBody.productsList [] }

/-- Attempt-indexed source answering 429 once and then 200. -/
def c3resp : Nat → Except String HttpResponse :=
  fun a => if a = 0 then Except.ok c3limited else Except.ok c3ok

/-- Product body size of a response, for stating page-size facts. -/
def pageLen (r : HttpResponse) : Option Nat :=
  match r.body with
  | ResponseBody.productsList ps => some ps.length
  | ResponseBody.malformed => none

/-- The products delivered over the stream: concatenation of all `products`
chunks, in order. -/
def eventsProducts : List ScrapeEvent → List ScrapedProduct
  | [] => []
  | ScrapeEvent.products c _ _ :: rest => c ++ eventsProducts rest
  | _ :: rest => eventsProducts rest

/-- Terminal events of the stream protocol. -/
def isTerminal (e : ScrapeEvent) : Prop :=
  e = ScrapeEvent.done ∨ ∃ m, e = ScrapeEvent.error m

/-! ## Batch uploader (`product-uploader.ts`, `uploadProducts`, lines 205–267)

`uploadSingleProduct` performs network mutations; its observable outcome for
the aggregation loop is the settled promise value, so it is abstracted by an
oracle indexed by the product's position in the input list.  Since
`uploadSingleProduct` catches every exception and resolves with
`{success: false, error}`, the `rejected` case exists only for the defensive
`result.status === "fulfilled"` test of the loop. -/

/-- A settled promise from `Promise.allSettled`: fulfilled with
`{success, error?}`, or rejected with a reason. -/
inductive SettledResult where
  | fulfilled (success : Bool) (error : Option String)
  | rejected (reason : String)
  deriving Repr, DecidableEq

/-- Model of `UploadProgress` from `product-uploader.ts` lines 62–71. -/
structure UploadProgress where
  total : Nat
  completed : Nat
  failed : Nat
  current : Option String
  errors : List (String × String)
  deriving Repr, DecidableEq

/-- Model of `String(error)` for the error recorded on a failed item:
`result.value.error` when fulfilled (JavaScript renders a missing field as
`"undefined"`), `result.reason` when rejected. -/
def settledErrorString : SettledResult → String
  | SettledResult.fulfilled _ e => e.getD "undefined"
  | SettledResult.rejected reason => reason

/-- The `results.forEach((result, index) => ...)` pass of lines 237–252:
count a fulfilled success as completed, anything else as failed with an
`{productTitle, error}` entry appended. -/
def processBatch (upl : Nat → SettledResult) :
    Nat → List ScrapedProduct → UploadProgress → UploadProgress
  | _, [], prog => prog
  | i, p :: rest, prog =>
    let prog' :=
      match upl i with
      | SettledResult.fulfilled true _ =>
        { prog with completed := prog.completed + 1 }
      | res =>
        { prog with failed := prog.failed + 1,
                    errors := prog.errors ++ [(p.title, settledErrorString res)] }
    processBatch upl (i + 1) rest prog'

/-- The `for (i = 0; i < products.length; i += batchSize)` loop of lines
228–264: process one batch, record the snapshot passed to `onProgress`
(lines 255–258, with `current` set to the last batch item's title), then
continue with the rest.  The inter-batch sleep (lines 261–263) has no
observable effect here.  The fuel (one unit per batch, `products.length` at
top level) is never exhausted when `batchSize ≥ 1`; the TypeScript loop
would not terminate at all for `batchSize = 0`. -/
def uploadGo (upl : Nat → SettledResult) (batchSize : Nat) :
    Nat → List ScrapedProduct → Nat → UploadProgress →
      UploadProgress × List UploadProgress
  | 0, _, _, prog => (prog, [])
  | _ + 1, [], _, prog => (prog, [])
  | fuel + 1, p :: rest, i, prog =>
    let batch := (p :: rest).take batchSize
    let afterBatch := processBatch upl i batch prog
    let snap := { afterBatch with
                  current := (batch.getLast?.map ScrapedProduct.title) }
    let cont := uploadGo upl batchSize fuel ((p :: rest).drop batchSize)
      (i + batchSize) snap
    (cont.1, snap :: cont.2)

/-- Model of `uploadProducts` (lines 205–267): fresh `UploadProgress`, batch loop,
final accumulator returned.  The second component collects the snapshots
handed to the `onProgress` callback, in call order. -/
def uploadProducts (upl : Nat → SettledResult)
    (products : List ScrapedProduct) (batchSize : Nat) :
    UploadProgress × List UploadProgress :=
  uploadGo upl batchSize products.length products 0
    { total := products.length, completed := 0, failed := 0,
      current := none, errors := [] }

/-- Settled-result oracle failing exactly the item at index 1 with message
`boom`. -/
def c5upl : Nat → SettledResult :=
  fun i =>
    if i = 1 then SettledResult.fulfilled false (some "boom")
    else SettledResult.fulfilled true none

/-- Non-terminal, non-`products` ("observational") events. -/
def obsEvent : ScrapeEvent → Prop
  | ScrapeEvent.start _ => True
  | ScrapeEvent.fetching _ _ => True
  | ScrapeEvent.progress _ _ _ => True
  | ScrapeEvent.waiting _ _ _ => True
  | ScrapeEvent.warning _ => True
  | _ => False

/-- Predicate `fullPageAt f pages j`: requesting page `j` resolves to a 2xx response
whose body is the 250-element, valid-handle product list `pages j`. -/
def fullPageAt (f : Nat → Nat → Except String HttpResponse)
    (pages : Nat → List ScrapedProduct) (j : Nat) : Prop :=
  (∃ r, (fetchWithRetry (f j) 5 2000).outcome = Except.ok r ∧
    isOkStatus r.status ∧ r.body = ResponseBody.productsList (pages j)) ∧
  (pages j).length = 250 ∧ ∀ p ∈ pages j, p.handle ≠ ""

/-- The consecutive page numbers `[start, …, start + k - 1]`. -/
def pageList : Nat → Nat → List Nat
  | _, 0 => []
  | start, k + 1 => start :: pageList (start + 1) k

/-- Concatenation of the annotated pages `start, …, start + k - 1`. -/
def annotJoin (d : String) (pages : Nat → List ScrapedProduct) :
    Nat → Nat → List ScrapedProduct
  | _, 0 => []
  | start, k + 1 =>
    (pages start).map (withUrl d) ++ annotJoin d pages (start + 1) k

/-- Non-streaming counterpart of `fullPageAt` (a plain `fetch`, no retry). -/
def plainFullPageAt (src : Nat → HttpResponse)
    (pages : Nat → List ScrapedProduct) (j : Nat) : Prop :=
  isOkStatus (src j).status ∧
    (src j).body = ResponseBody.productsList (pages j) ∧
    (pages j).length = 250 ∧ ∀ p ∈ pages j, p.handle ≠ ""

/-- The canonical product-URL property of C10. -/
def hasCanonicalUrl (d : String) (p : ScrapedProduct) : Prop :=
  p.url = "https://" ++ d ++ "/products/" ++ p.handle

/-- Pointwise order on the two counters of an `UploadProgress`. -/
def progLE (a b : UploadProgress) : Prop :=
  a.completed ≤ b.completed ∧ a.failed ≤ b.failed

/-! ## Helper lemmas -/

theorem annotateProducts_ok (d : String) (ps : List ScrapedProduct)
    (h : ∀ p ∈ ps, p.handle ≠ "") :
    annotateProducts d ps = Except.ok (ps.map (withUrl d)) := by
  induction ps with
  | nil => rfl
  | cons p rest ih =>
    have hp : p.handle ≠ "" := h p (List.mem_cons_self p rest)
    have hrest : ∀ q ∈ rest, q.handle ≠ "" := fun q hq => h q (List.mem_cons_of_mem p hq)
    simp [annotateProducts, getShopifyProductUrl, hp, ih hrest, withUrl]

theorem annotateProducts_error (d : String) (ps : List ScrapedProduct)
    (h : ∃ p ∈ ps, p.handle = "") :
    annotateProducts d ps = Except.error "Invalid product object" := by
  induction ps with
  | nil => simp at h
  | cons p rest ih =>
    by_cases hp : p.handle = ""
    · simp [annotateProducts, getShopifyProductUrl, hp]
    · obtain ⟨q, hq, hq0⟩ := h
      rcases List.mem_cons.mp hq with rfl | hq'
      · exact absurd hq0 hp
      · simp [annotateProducts, getShopifyProductUrl, hp, ih ⟨q, hq', hq0⟩]

theorem fetchWithRetry_first_ok (resp : Nat → Except String HttpResponse)
    (r : HttpResponse) (h0 : resp 0 = Except.ok r) (h429 : r.status ≠ 429) :
    fetchWithRetry resp 5 2000 = ⟨Except.ok r, []⟩ := by
  simp [fetchWithRetry, fetchWithRetryGo, h0, h429]

theorem eventsProducts_append (a b : List ScrapeEvent) :
    eventsProducts (a ++ b) = eventsProducts a ++ eventsProducts b := by
  induction a with
  | nil => simp [eventsProducts]
  | cons e rest ih =>
    cases e <;> simp [eventsProducts, ih]

theorem eventsProducts_chunksGo (all : List ScrapedProduct) (total : Nat) :
    ∀ k idx, eventsProducts (productChunksGo all total idx k) =
      (all.drop (idx * 100)).take (100 * k) := by
  intro k
  induction k with
  | zero => intro idx; simp [productChunksGo, eventsProducts]
  | succ k ih =>
    intro idx
    have hdrop : (all.drop (idx * 100)).drop 100 = all.drop ((idx + 1) * 100) := by
      rw [List.drop_drop]
      congr 1
      ring
    calc eventsProducts (productChunksGo all total idx (k + 1))
        = (all.drop (idx * 100)).take 100 ++
            eventsProducts (productChunksGo all total (idx + 1) k) := by
          simp [productChunksGo, eventsProducts]
      _ = (all.drop (idx * 100)).take 100 ++
            ((all.drop (idx * 100)).drop 100).take (100 * k) := by
          rw [ih, hdrop]
      _ = (all.drop (idx * 100)).take (100 * (k + 1)) := by
          rw [← List.take_add]
          congr 1
          ring

theorem eventsProducts_finish (all : List ScrapedProduct) (d : String) :
    eventsProducts (finishEvents all d) = all := by
  have hlen : all.length ≤ 100 * numChunks all.length := by
    unfold numChunks; omega
  simp [finishEvents, eventsProducts, eventsProducts_append,
    eventsProducts_chunksGo, List.take_of_length_le hlen]

theorem obsEvent_not_terminal {e : ScrapeEvent} (h : obsEvent e) : ¬ isTerminal e := by
  cases e <;> simp [obsEvent, isTerminal] at h ⊢

theorem eventsProducts_obs_cons {e : ScrapeEvent} (l : List ScrapeEvent)
    (h : obsEvent e) : eventsProducts (e :: l) = eventsProducts l := by
  cases e <;> simp [obsEvent] at h <;> simp [eventsProducts]

theorem eventsProducts_obs (l : List ScrapeEvent) (h : ∀ e ∈ l, obsEvent e) :
    eventsProducts l = [] := by
  induction l with
  | nil => rfl
  | cons e rest ih =>
    rw [eventsProducts_obs_cons rest (h e (List.mem_cons_self e rest))]
    exact ih fun x hx => h x (List.mem_cons_of_mem e hx)

theorem chunksGo_obs_free (all : List ScrapedProduct) (total : Nat) :
    ∀ k idx e, e ∈ productChunksGo all total idx k →
      ∃ c i t, e = ScrapeEvent.products c i t := by
  intro k
  induction k with
  | zero => intro idx e he; simp [productChunksGo] at he
  | succ k ih =>
    intro idx e he
    rcases List.mem_cons.mp he with rfl | he'
    · exact ⟨_, _, _, rfl⟩
    · exact ih (idx + 1) e he'

theorem finish_getLast (all : List ScrapedProduct) (d : String) :
    (finishEvents all d).getLast? = some ScrapeEvent.done := by
  rw [finishEvents, List.getLast?_concat]

theorem finish_no_error (all : List ScrapedProduct) (d : String) (m : String) :
    ScrapeEvent.error m ∉ finishEvents all d := by
  intro hmem
  rw [finishEvents] at hmem
  rcases List.mem_append.mp hmem with hmem' | h
  · rcases List.mem_cons.mp hmem' with h | h
    · exact ScrapeEvent.noConfusion h
    · obtain ⟨c, i, t, he⟩ := chunksGo_obs_free all _ _ _ _ h
      exact ScrapeEvent.noConfusion he
  · exact ScrapeEvent.noConfusion (List.mem_singleton.mp h)

theorem finish_no_done_inside (all : List ScrapedProduct) (d : String) :
    ∀ e ∈ (finishEvents all d).dropLast, ¬ isTerminal e := by
  intro e he
  have hdl : (finishEvents all d).dropLast =
      ScrapeEvent.complete all.length d ::
        productChunksGo all (numChunks all.length) 0 (numChunks all.length) := by
    rw [finishEvents, List.dropLast_concat]
  rw [hdl] at he
  rcases List.mem_cons.mp he with rfl | he'
  · simp [isTerminal]
  · obtain ⟨c, i, t, rfl⟩ := chunksGo_obs_free all _ _ 0 e he'
    simp [isTerminal]

theorem stepTail_obs (len page' total : Nat) :
    ∀ e ∈ stepTail len page' total, obsEvent e := by
  intro e he
  have hshape : e = ScrapeEvent.waiting 3000 page' total ∨
      e = ScrapeEvent.warning (warn100Msg page' total) ∨
      e = ScrapeEvent.warning (warnStopMsg page' total) := by
    unfold stepTail at he
    rcases List.mem_append.mp he with h | h
    · rcases List.mem_append.mp h with h' | h'
      · left
        split_ifs at h'
        · exact absurd h' (List.not_mem_nil e)
        · exact List.mem_singleton.mp h'
      · refine Or.inr (Or.inl ?_)
        split_ifs at h'
        · exact List.mem_singleton.mp h'
        · exact absurd h' (List.not_mem_nil e)
    · refine Or.inr (Or.inr ?_)
      split_ifs at h
      · exact List.mem_singleton.mp h
      · exact absurd h (List.not_mem_nil e)
  rcases hshape with rfl | rfl | rfl <;> trivial

theorem eventsProducts_stepTail (a b c : Nat) :
    eventsProducts (stepTail a b c) = [] :=
  eventsProducts_obs _ (fun e he => stepTail_obs a b c e he)

/-- Shape of every tail of a scrape-stream run: some non-terminal prefix
followed either by the completion block or by a single `error` event. -/
theorem streamGo_shape (f : Nat → Nat → Except String HttpResponse)
    (d : String) : ∀ fuel page acc reqs, ∃ pre,
    (∀ e ∈ pre, ¬ isTerminal e) ∧
    ((∃ a, (streamGo f d fuel page acc reqs).1 = pre ++ finishEvents a d) ∨
     (∃ m, (streamGo f d fuel page acc reqs).1 = pre ++ [ScrapeEvent.error m])) := by
  intro fuel
  induction fuel with
  | zero =>
    intro page acc reqs
    exact ⟨[], by simp, Or.inl ⟨acc, by simp [streamGo]⟩⟩
  | succ fuel ih =>
    intro page acc reqs
    rcases hout : (fetchWithRetry (f page) 5 2000).outcome with e | r
    · exact ⟨[ScrapeEvent.fetching page acc.length], by simp [isTerminal],
        Or.inr ⟨e, by simp [streamGo, hout]⟩⟩
    · by_cases hok : isOkStatus r.status
      · rcases hbody : r.body with ps | _
        · by_cases hlen0 : ps.length = 0
          · exact ⟨[ScrapeEvent.fetching page acc.length], by simp [isTerminal],
              Or.inl ⟨acc, by simp [streamGo, hout, hok, hbody, hlen0]⟩⟩
          · rcases hann : annotateProducts d ps with e | ps'
            · exact ⟨[ScrapeEvent.fetching page acc.length], by simp [isTerminal],
                Or.inr ⟨e, by simp [streamGo, hout, hok, hbody, hlen0, hann]⟩⟩
            · by_cases hstop : ps.length < 250 ∨ 150 < page + 1
              · refine ⟨ScrapeEvent.fetching page acc.length ::
                  ScrapeEvent.progress page ps.length (acc ++ ps').length ::
                    stepTail ps.length (page + 1) (acc ++ ps').length, ?_,
                  Or.inl ⟨acc ++ ps', by simp [streamGo, hout, hok, hbody, hlen0, hann, hstop]⟩⟩
                intro e he
                rcases List.mem_cons.mp he with rfl | he'
                · simp [isTerminal]
                · rcases List.mem_cons.mp he' with rfl | he''
                  · simp [isTerminal]
                  · exact obsEvent_not_terminal (stepTail_obs _ _ _ e he'')
              · obtain ⟨pre, hpre, hdisj⟩ := ih (page + 1) (acc ++ ps') (reqs ++ [page])
                refine ⟨ScrapeEvent.fetching page acc.length ::
                  ScrapeEvent.progress page ps.length (acc ++ ps').length ::
                    (stepTail ps.length (page + 1) (acc ++ ps').length ++ pre), ?_, ?_⟩
                · intro e he
                  rcases List.mem_cons.mp he with rfl | he'
                  · simp [isTerminal]
                  · rcases List.mem_cons.mp he' with rfl | he''
                    · simp [isTerminal]
                    · rcases List.mem_append.mp he'' with h | h
                      · exact obsEvent_not_terminal (stepTail_obs _ _ _ e h)
                      · exact hpre e h
                · rcases hdisj with ⟨a, ha⟩ | ⟨m, hm⟩
                  · exact Or.inl ⟨a, by simp [streamGo, hout, hok, hbody, hlen0, hann, hstop, ha]⟩
                  · exact Or.inr ⟨m, by simp [streamGo, hout, hok, hbody, hlen0, hann, hstop, hm]⟩
        · exact ⟨[ScrapeEvent.fetching page acc.length], by simp [isTerminal],
            Or.inr ⟨"Invalid response format from store",
              by simp [streamGo, hout, hok, hbody]⟩⟩
      · by_cases h404 : r.status = 404
        · exact ⟨[ScrapeEvent.fetching page acc.length], by simp [isTerminal],
            Or.inr ⟨"Store not found. Make sure the domain is correct.",
              by simp [streamGo, hout, h404, isOkStatus]⟩⟩
        · by_cases h400 : r.status = 400 ∧ 1 < page
          · refine ⟨[ScrapeEvent.fetching page acc.length,
              ScrapeEvent.warning (warn400Msg page acc.length)], ?_,
              Or.inl ⟨acc, by simp [streamGo, hout, h400.1, h400.2, isOkStatus]⟩⟩
            intro e he
            rcases List.mem_cons.mp he with rfl | he'
            · simp [isTerminal]
            · rcases List.mem_cons.mp he' with rfl | he''
              · simp [isTerminal]
              · exact absurd he'' (List.not_mem_nil e)
          · exact ⟨[ScrapeEvent.fetching page acc.length], by simp [isTerminal],
              Or.inr ⟨fetchFailMsg r.status r.statusText,
                by simp [streamGo, hout, hok, h404, h400]⟩⟩

/-! ### Single-step evaluation lemmas for the streaming loop -/

/-- One page delivered a full page of 250 valid products and the safety
ceiling is not hit: emit `fetching`/`progress`/`waiting` (and possibly the
page-100 advisory) and continue with the annotated products appended. -/
theorem streamGo_step_full (f : Nat → Nat → Except String HttpResponse)
    (d : String) (fuel page : Nat) (acc : List ScrapedProduct) (reqs : List Nat)
    (r : HttpResponse) (ps : List ScrapedProduct)
    (hout : (fetchWithRetry (f page) 5 2000).outcome = Except.ok r)
    (hok : isOkStatus r.status) (hbody : r.body = ResponseBody.productsList ps)
    (hlen : ps.length = 250) (hh : ∀ p ∈ ps, p.handle ≠ "")
    (hpage : page + 1 ≤ 150) :
    streamGo f d (fuel + 1) page acc reqs =
      (ScrapeEvent.fetching page acc.length ::
        ScrapeEvent.progress page ps.length (acc ++ ps.map (withUrl d)).length ::
        (stepTail ps.length (page + 1) (acc ++ ps.map (withUrl d)).length ++
          (streamGo f d fuel (page + 1) (acc ++ ps.map (withUrl d)) (reqs ++ [page])).1),
       (streamGo f d fuel (page + 1) (acc ++ ps.map (withUrl d)) (reqs ++ [page])).2) := by
  have hann := annotateProducts_ok d ps hh
  have hlen0 : ¬ ps.length = 0 := by omega
  have hstop : ¬ (ps.length < 250 ∨ 150 < page + 1) := by omega
  simp [streamGo, hout, hok, hbody, hlen0, hann, hstop]

/-- One page delivered a short (but nonempty) page of valid products before
page 99: emit `fetching`/`progress` and finish cleanly. -/
theorem streamGo_step_short (f : Nat → Nat → Except String HttpResponse)
    (d : String) (fuel page : Nat) (acc : List ScrapedProduct) (reqs : List Nat)
    (r : HttpResponse) (ps : List ScrapedProduct)
    (hout : (fetchWithRetry (f page) 5 2000).outcome = Except.ok r)
    (hok : isOkStatus r.status) (hbody : r.body = ResponseBody.productsList ps)
    (hlen : 0 < ps.length) (hshort : ps.length < 250)
    (hh : ∀ p ∈ ps, p.handle ≠ "") (hpage : page + 1 < 100) :
    streamGo f d (fuel + 1) page acc reqs =
      (ScrapeEvent.fetching page acc.length ::
        ScrapeEvent.progress page ps.length (acc ++ ps.map (withUrl d)).length ::
        finishEvents (acc ++ ps.map (withUrl d)) d,
       reqs ++ [page]) := by
  have hann := annotateProducts_ok d ps hh
  have hlen0 : ¬ ps.length = 0 := by omega
  have h100 : ¬ 100 ≤ page + 1 := by omega
  have h150 : ¬ 150 < page + 1 := by omega
  simp [streamGo, hout, hok, hbody, hlen0, hann, hshort, stepTail, h100, h150]

/-- One page delivered an empty page: the loop stops without appending
anything and finishes cleanly. -/
theorem streamGo_step_empty (f : Nat → Nat → Except String HttpResponse)
    (d : String) (fuel page : Nat) (acc : List ScrapedProduct) (reqs : List Nat)
    (r : HttpResponse)
    (hout : (fetchWithRetry (f page) 5 2000).outcome = Except.ok r)
    (hok : isOkStatus r.status) (hbody : r.body = ResponseBody.productsList []) :
    streamGo f d (fuel + 1) page acc reqs =
      (ScrapeEvent.fetching page acc.length :: finishEvents acc d,
       reqs ++ [page]) := by
  simp [streamGo, hout, hok, hbody]

/-- A 400 response on a page past the first: warning, clean finish with the
accumulated products. -/
theorem streamGo_step_400 (f : Nat → Nat → Except String HttpResponse)
    (d : String) (fuel page : Nat) (acc : List ScrapedProduct) (reqs : List Nat)
    (r : HttpResponse)
    (hout : (fetchWithRetry (f page) 5 2000).outcome = Except.ok r)
    (h400 : r.status = 400) (hpage : 1 < page) :
    streamGo f d (fuel + 1) page acc reqs =
      (ScrapeEvent.fetching page acc.length ::
        ScrapeEvent.warning (warn400Msg page acc.length) ::
        finishEvents acc d,
       reqs ++ [page]) := by
  simp [streamGo, hout, h400, hpage, isOkStatus]

/-- A page whose product list contains a falsy handle: the annotation pass
throws and the stream dies with a single `error` event. -/
theorem streamGo_step_badHandle (f : Nat → Nat → Except String HttpResponse)
    (d : String) (fuel page : Nat) (acc : List ScrapedProduct) (reqs : List Nat)
    (r : HttpResponse) (ps : List ScrapedProduct)
    (hout : (fetchWithRetry (f page) 5 2000).outcome = Except.ok r)
    (hok : isOkStatus r.status) (hbody : r.body = ResponseBody.productsList ps)
    (hbad : ∃ p ∈ ps, p.handle = "") :
    streamGo f d (fuel + 1) page acc reqs =
      ([ScrapeEvent.fetching page acc.length,
        ScrapeEvent.error "Invalid product object"],
       reqs ++ [page]) := by
  have hann := annotateProducts_error d ps hbad
  have hlen0 : ¬ ps.length = 0 := by
    obtain ⟨p, hp, _⟩ := hbad
    have := List.length_pos.mpr (List.ne_nil_of_mem hp)
    omega
  simp [streamGo, hout, hok, hbody, hlen0, hann]

/-! ### Prefix runs over consecutive full pages -/

/-- Running the streaming loop across `k` consecutive full pages: only
observational events are emitted and the loop reaches page `page + k` with
the annotated pages appended and all page numbers recorded. -/
theorem streamGo_run_fullPages (f : Nat → Nat → Except String HttpResponse)
    (d : String) (pages : Nat → List ScrapedProduct) :
    ∀ (k page : Nat) (acc : List ScrapedProduct) (reqs : List Nat) (fuel : Nat),
    page + k ≤ 150 →
    (∀ j, page ≤ j → j < page + k → fullPageAt f pages j) →
    ∃ pre, (∀ e ∈ pre, obsEvent e) ∧
      streamGo f d (fuel + k) page acc reqs =
        (pre ++ (streamGo f d fuel (page + k)
            (acc ++ annotJoin d pages page k) (reqs ++ pageList page k)).1,
         (streamGo f d fuel (page + k)
            (acc ++ annotJoin d pages page k) (reqs ++ pageList page k)).2) := by
  intro k
  induction k with
  | zero =>
    intro page acc reqs fuel _ _
    exact ⟨[], by simp, by simp [annotJoin, pageList]⟩
  | succ k ih =>
    intro page acc reqs fuel hcap hfull
    obtain ⟨⟨r, hout, hok, hbody⟩, hlen, hh⟩ :=
      hfull page (le_refl page) (by omega)
    have hstep := streamGo_step_full f d (fuel + k) page acc reqs r
      (pages page) hout hok hbody hlen hh (by omega)
    have hcast : fuel + (k + 1) = (fuel + k) + 1 := rfl
    obtain ⟨pre, hpre, hrec⟩ := ih (page + 1) (acc ++ (pages page).map (withUrl d))
      (reqs ++ [page]) fuel (by omega)
      (fun j h1 h2 => hfull j (by omega) (by omega))
    have harr : page + 1 + k = page + (k + 1) := by omega
    rw [harr] at hrec
    refine ⟨ScrapeEvent.fetching page acc.length ::
      ScrapeEvent.progress page (pages page).length
        (acc ++ (pages page).map (withUrl d)).length ::
      (stepTail (pages page).length (page + 1)
        (acc ++ (pages page).map (withUrl d)).length ++ pre), ?_, ?_⟩
    · intro e he
      rcases List.mem_cons.mp he with rfl | he'
      · trivial
      · rcases List.mem_cons.mp he' with rfl | he''
        · trivial
        · rcases List.mem_append.mp he'' with h | h
          · exact stepTail_obs _ _ _ e h
          · exact hpre e h
    · rw [hcast, hstep, hrec]
      have hacc : acc ++ (pages page).map (withUrl d) ++ annotJoin d pages (page + 1) k =
          acc ++ annotJoin d pages page (k + 1) := by
        rw [List.append_assoc]
        rfl
      have hreqs : reqs ++ [page] ++ pageList (page + 1) k =
          reqs ++ pageList page (k + 1) := by
        rw [List.append_assoc]
        rfl
      rw [hacc, hreqs]
      simp

/-! ### Single-step evaluation lemmas for the non-streaming loop -/

theorem scrapeGo_step_full (src : Nat → HttpResponse) (d : String)
    (maxP fuel page : Nat) (acc : List ScrapedProduct) (reqs : List Nat)
    (ps : List ScrapedProduct)
    (hok : isOkStatus (src page).status)
    (hbody : (src page).body = ResponseBody.productsList ps)
    (hlen : ps.length = 250) (hh : ∀ p ∈ ps, p.handle ≠ "")
    (hpage : page + 1 ≤ 100) :
    scrapeGo src d true maxP (fuel + 1) page acc reqs =
      scrapeGo src d true maxP fuel (page + 1)
        (acc ++ ps.map (withUrl d)) (reqs ++ [page]) := by
  have hann := annotateProducts_ok d ps hh
  have hlen0 : ¬ ps.length = 0 := by omega
  have hshort : ¬ ps.length < 250 := by omega
  have hcap : ¬ 100 < page + 1 := by omega
  simp [scrapeGo, hok, hbody, hlen0, hann, hshort, hcap]

theorem scrapeGo_step_short (src : Nat → HttpResponse) (d : String)
    (maxP fuel page : Nat) (acc : List ScrapedProduct) (reqs : List Nat)
    (ps : List ScrapedProduct)
    (hok : isOkStatus (src page).status)
    (hbody : (src page).body = ResponseBody.productsList ps)
    (hlen : 0 < ps.length) (hshort : ps.length < 250)
    (hh : ∀ p ∈ ps, p.handle ≠ "") :
    scrapeGo src d true maxP (fuel + 1) page acc reqs =
      (Except.ok (acc ++ ps.map (withUrl d)), reqs ++ [page]) := by
  have hann := annotateProducts_ok d ps hh
  have hlen0 : ¬ ps.length = 0 := by omega
  simp [scrapeGo, hok, hbody, hlen0, hann, hshort]

theorem scrapeGo_step_empty (src : Nat → HttpResponse) (d : String)
    (maxP fuel page : Nat) (acc : List ScrapedProduct) (reqs : List Nat)
    (hok : isOkStatus (src page).status)
    (hbody : (src page).body = ResponseBody.productsList []) :
    scrapeGo src d true maxP (fuel + 1) page acc reqs =
      (Except.ok acc, reqs ++ [page]) := by
  simp [scrapeGo, hok, hbody]

theorem scrapeGo_step_badHandle (src : Nat → HttpResponse) (d : String)
    (maxP fuel page : Nat) (acc : List ScrapedProduct) (reqs : List Nat)
    (ps : List ScrapedProduct)
    (hok : isOkStatus (src page).status)
    (hbody : (src page).body = ResponseBody.productsList ps)
    (hbad : ∃ p ∈ ps, p.handle = "") :
    scrapeGo src d true maxP (fuel + 1) page acc reqs =
      (Except.error "Invalid product object", reqs ++ [page]) := by
  have hann := annotateProducts_error d ps hbad
  have hlen0 : ¬ ps.length = 0 := by
    obtain ⟨p, hp, _⟩ := hbad
    have := List.length_pos.mpr (List.ne_nil_of_mem hp)
    omega
  simp [scrapeGo, hok, hbody, hlen0, hann]

theorem scrapeGo_run_fullPages (src : Nat → HttpResponse) (d : String) (maxP : Nat)
    (pages : Nat → List ScrapedProduct) :
    ∀ (k page : Nat) (acc : List ScrapedProduct) (reqs : List Nat) (fuel : Nat),
    page + k ≤ 100 →
    (∀ j, page ≤ j → j < page + k → plainFullPageAt src pages j) →
    scrapeGo src d true maxP (fuel + k) page acc reqs =
      scrapeGo src d true maxP fuel (page + k)
        (acc ++ annotJoin d pages page k) (reqs ++ pageList page k) := by
  intro k
  induction k with
  | zero =>
    intro page acc reqs fuel _ _
    simp [annotJoin, pageList]
  | succ k ih =>
    intro page acc reqs fuel hcap hfull
    obtain ⟨hok, hbody, hlen, hh⟩ := hfull page (le_refl page) (by omega)
    have hcast : fuel + (k + 1) = (fuel + k) + 1 := rfl
    rw [hcast, scrapeGo_step_full src d maxP (fuel + k) page acc reqs
      (pages page) hok hbody hlen hh (by omega)]
    have hrec := ih (page + 1) (acc ++ (pages page).map (withUrl d))
      (reqs ++ [page]) fuel (by omega)
      (fun j h1 h2 => hfull j (by omega) (by omega))
    have harr : page + 1 + k = page + (k + 1) := by omega
    rw [harr] at hrec
    rw [hrec]
    have hacc : acc ++ (pages page).map (withUrl d) ++ annotJoin d pages (page + 1) k =
        acc ++ annotJoin d pages page (k + 1) := by
      rw [List.append_assoc]
      rfl
    have hreqs : reqs ++ [page] ++ pageList (page + 1) k =
        reqs ++ pageList page (k + 1) := by
      rw [List.append_assoc]
      rfl
    rw [hacc, hreqs]

/-! ### URL annotation invariants -/

theorem annotateProducts_ok_inv (d : String) :
    ∀ (ps ps' : List ScrapedProduct),
    annotateProducts d ps = Except.ok ps' →
    ps' = ps.map (withUrl d) := by
  intro ps
  induction ps with
  | nil =>
    intro ps' h
    simp only [annotateProducts] at h
    injection h with h'
    rw [← h']
    simp
  | cons p rest ih =>
    intro ps' h
    by_cases hp : p.handle = ""
    · simp [annotateProducts, getShopifyProductUrl, hp] at h
    · rcases hrest : annotateProducts d rest with e | rest'
      · simp [annotateProducts, getShopifyProductUrl, hp, hrest] at h
      · simp only [annotateProducts, getShopifyProductUrl, hp, if_neg hp, hrest] at h
        injection h with h'
        rw [← h', ih rest' hrest]
        simp [withUrl]

theorem withUrl_canonical (d : String) (p : ScrapedProduct) :
    hasCanonicalUrl d (withUrl d p) := by
  simp [hasCanonicalUrl, withUrl]

theorem append_annot_canonical (d : String) (acc ps : List ScrapedProduct)
    (hacc : ∀ p ∈ acc, hasCanonicalUrl d p) :
    ∀ p ∈ acc ++ ps.map (withUrl d), hasCanonicalUrl d p := by
  intro p hp
  rcases List.mem_append.mp hp with h | h
  · exact hacc p h
  · obtain ⟨q, _, rfl⟩ := List.mem_map.mp h
    exact withUrl_canonical d q

/-- Every product list returned successfully by the non-streaming loop
consists of canonically annotated products (given that the accumulator
already does). -/
theorem scrapeGo_ok_urls (src : Nat → HttpResponse) (d : String)
    (inc : Bool) (maxP : Nat) :
    ∀ (fuel page : Nat) (acc : List ScrapedProduct) (reqs : List Nat)
      (l : List ScrapedProduct),
    (∀ p ∈ acc, hasCanonicalUrl d p) →
    (scrapeGo src d inc maxP fuel page acc reqs).1 = Except.ok l →
    ∀ p ∈ l, hasCanonicalUrl d p := by
  intro fuel
  induction fuel with
  | zero =>
    intro page acc reqs l hacc hl
    simp [scrapeGo] at hl
    exact hl ▸ hacc
  | succ fuel ih =>
    intro page acc reqs l hacc hl
    by_cases hcond : (inc = true) ∨ acc.length < maxP
    · by_cases hok : isOkStatus (src page).status
      · rcases hbody : (src page).body with ps | _
        · by_cases hlen0 : ps.length = 0
          · simp [scrapeGo, hcond, hok, hbody, hlen0] at hl
            exact hl ▸ hacc
          · rcases hann : annotateProducts d ps with e | ps'
            · simp [scrapeGo, hcond, hok, hbody, hlen0, hann] at hl
            · have hps' : ps' = ps.map (withUrl d) := annotateProducts_ok_inv d ps ps' hann
              have hacc' : ∀ p ∈ acc ++ ps', hasCanonicalUrl d p := by
                rw [hps']
                exact append_annot_canonical d acc ps hacc
              by_cases hshort : ps.length < 250
              · simp [scrapeGo, hcond, hok, hbody, hlen0, hann, hshort] at hl
                exact hl ▸ hacc'
              · by_cases hcap : 100 < page + 1
                · simp [scrapeGo, hcond, hok, hbody, hlen0, hann, hshort, hcap] at hl
                  exact hl ▸ hacc'
                · have hrw : (scrapeGo src d inc maxP (fuel + 1) page acc reqs).1 =
                      (scrapeGo src d inc maxP fuel (page + 1) (acc ++ ps')
                        (reqs ++ [page])).1 := by
                    simp [scrapeGo, hcond, hok, hbody, hlen0, hann, hshort, hcap]
                  rw [hrw] at hl
                  exact ih (page + 1) (acc ++ ps') (reqs ++ [page]) l hacc' hl
        · simp [scrapeGo, hcond, hok, hbody] at hl
      · by_cases h404 : (src page).status = 404
        · simp [scrapeGo, hcond, h404, isOkStatus] at hl
        · simp [scrapeGo, hcond, hok, h404] at hl
    · simp [scrapeGo, hcond] at hl
      exact hl ▸ hacc

/-- Every product delivered in a `products` chunk of the streaming loop is
canonically annotated (given that the accumulator already is). -/
theorem streamGo_products_urls (f : Nat → Nat → Except String HttpResponse)
    (d : String) :
    ∀ (fuel page : Nat) (acc : List ScrapedProduct) (reqs : List Nat),
    (∀ p ∈ acc, hasCanonicalUrl d p) →
    ∀ p ∈ eventsProducts (streamGo f d fuel page acc reqs).1, hasCanonicalUrl d p := by
  intro fuel
  induction fuel with
  | zero =>
    intro page acc reqs hacc
    simpa [scrapeGo, streamGo, eventsProducts_finish] using hacc
  | succ fuel ih =>
    intro page acc reqs hacc
    rcases hout : (fetchWithRetry (f page) 5 2000).outcome with e | r
    · simp [streamGo, hout, eventsProducts]
    · by_cases hok : isOkStatus r.status
      · rcases hbody : r.body with ps | _
        · by_cases hlen0 : ps.length = 0
          · intro p hp
            rw [streamGo_step_empty f d fuel page acc reqs r hout hok
              (by rw [hbody, List.length_eq_zero.mp hlen0]),
              eventsProducts_obs_cons _ (by trivial), eventsProducts_finish] at hp
            exact hacc p hp
          · rcases hann : annotateProducts d ps with e | ps'
            · simp [streamGo, hout, hok, hbody, hlen0, hann, eventsProducts]
            · have hps' : ps' = ps.map (withUrl d) := annotateProducts_ok_inv d ps ps' hann
              have hacc' : ∀ p ∈ acc ++ ps', hasCanonicalUrl d p := by
                rw [hps']
                exact append_annot_canonical d acc ps hacc
              have htail0 : eventsProducts
                  (stepTail ps.length (page + 1) (acc ++ ps').length) = [] :=
                eventsProducts_obs _ (stepTail_obs _ _ _)
              by_cases hstop : ps.length < 250 ∨ 150 < page + 1
              · intro p hp
                have hrw : (streamGo f d (fuel + 1) page acc reqs).1 =
                    ScrapeEvent.fetching page acc.length ::
                      ScrapeEvent.progress page ps.length (acc ++ ps').length ::
                      (stepTail ps.length (page + 1) (acc ++ ps').length ++
                        finishEvents (acc ++ ps') d) := by
                  simp [streamGo, hout, hok, hbody, hlen0, hann, hstop]
                rw [hrw, eventsProducts_obs_cons _ (by trivial),
                  eventsProducts_obs_cons _ (by trivial), eventsProducts_append,
                  htail0, eventsProducts_finish, List.nil_append] at hp
                exact hacc' p hp
              · intro p hp
                have hrw : (streamGo f d (fuel + 1) page acc reqs).1 =
                    ScrapeEvent.fetching page acc.length ::
                      ScrapeEvent.progress page ps.length (acc ++ ps').length ::
                      (stepTail ps.length (page + 1) (acc ++ ps').length ++
                        (streamGo f d fuel (page + 1) (acc ++ ps') (reqs ++ [page])).1) := by
                  simp [streamGo, hout, hok, hbody, hlen0, hann, hstop]
                rw [hrw, eventsProducts_obs_cons _ (by trivial),
                  eventsProducts_obs_cons _ (by trivial), eventsProducts_append,
                  htail0, List.nil_append] at hp
                exact ih (page + 1) (acc ++ ps') (reqs ++ [page]) hacc' p hp
        · simp [streamGo, hout, hok, hbody, eventsProducts]
      · by_cases h404 : r.status = 404
        · simp [streamGo, hout, hok, h404, eventsProducts]
        · by_cases h400 : r.status = 400 ∧ 1 < page
          · intro p hp
            rw [streamGo_step_400 f d fuel page acc reqs r hout h400.1 h400.2,
              eventsProducts_obs_cons _ (by trivial),
              eventsProducts_obs_cons _ (by trivial), eventsProducts_finish] at hp
            exact hacc p hp
          · simp [streamGo, hout, hok, h404, h400, eventsProducts]

/-! ### Uploader invariants -/

theorem processBatch_spec (upl : Nat → SettledResult) :
    ∀ (batch : List ScrapedProduct) (i : Nat) (prog : UploadProgress),
    (processBatch upl i batch prog).total = prog.total ∧
    (processBatch upl i batch prog).current = prog.current ∧
    prog.completed ≤ (processBatch upl i batch prog).completed ∧
    prog.failed ≤ (processBatch upl i batch prog).failed ∧
    (processBatch upl i batch prog).completed + (processBatch upl i batch prog).failed =
      prog.completed + prog.failed + batch.length ∧
    (processBatch upl i batch prog).errors.length + prog.failed =
      prog.errors.length + (processBatch upl i batch prog).failed := by
  intro batch
  induction batch with
  | nil =>
    intro i prog
    simp [processBatch]
  | cons p rest ih =>
    intro i prog
    rcases hres : upl i with ⟨success, err⟩ | reason
    · cases success
      · have := ih (i + 1)
          { prog with
            failed := prog.failed + 1
            errors := prog.errors ++
              [(p.title, settledErrorString (SettledResult.fulfilled false err))] }
        simp only [processBatch, hres, List.length_cons] at *
        obtain ⟨h1, h2, h3, h4, h5, h6⟩ := this
        refine ⟨h1, h2, by omega, by omega, by omega, ?_⟩
        simp only [List.length_append, List.length_singleton] at h6
        omega
      · have := ih (i + 1) { prog with completed := prog.completed + 1 }
        simp only [processBatch, hres, List.length_cons] at *
        obtain ⟨h1, h2, h3, h4, h5, h6⟩ := this
        exact ⟨h1, h2, by omega, by omega, by omega, by omega⟩
    · have := ih (i + 1)
        { prog with
          failed := prog.failed + 1
          errors := prog.errors ++
            [(p.title, settledErrorString (SettledResult.rejected reason))] }
      simp only [processBatch, hres, List.length_cons] at *
      obtain ⟨h1, h2, h3, h4, h5, h6⟩ := this
      refine ⟨h1, h2, by omega, by omega, by omega, ?_⟩
      simp only [List.length_append, List.length_singleton] at h6
      omega

theorem uploadGo_spec (upl : Nat → SettledResult) (batchSize : Nat)
    (hbs : 1 ≤ batchSize) :
    ∀ (fuel : Nat) (rem : List ScrapedProduct) (i : Nat) (prog : UploadProgress),
    rem.length ≤ fuel →
    prog.errors.length = prog.failed →
    (uploadGo upl batchSize fuel rem i prog).1.total = prog.total ∧
    (uploadGo upl batchSize fuel rem i prog).1.completed +
      (uploadGo upl batchSize fuel rem i prog).1.failed =
      prog.completed + prog.failed + rem.length ∧
    (uploadGo upl batchSize fuel rem i prog).1.errors.length =
      (uploadGo upl batchSize fuel rem i prog).1.failed ∧
    (∀ s ∈ (uploadGo upl batchSize fuel rem i prog).2,
      s.total = prog.total ∧ s.errors.length = s.failed ∧
      prog.completed ≤ s.completed ∧ prog.failed ≤ s.failed ∧
      s.completed + s.failed ≤ prog.completed + prog.failed + rem.length) ∧
    List.Chain' progLE (uploadGo upl batchSize fuel rem i prog).2 := by
  intro fuel
  induction fuel with
  | zero =>
    intro rem i prog hfuel hinv
    have hrem : rem = [] := List.length_eq_zero.mp (Nat.le_zero.mp hfuel)
    subst hrem
    simp [uploadGo, hinv]
  | succ fuel ih =>
    intro rem i prog hfuel hinv
    rcases rem with _ | ⟨p, rest⟩
    · simp [uploadGo, hinv]
    · obtain ⟨hb1, hb2, hb3, hb4, hb5, hb6⟩ :=
        processBatch_spec upl ((p :: rest).take batchSize) i prog
    -- the snapshot and the progress passed on are the same record
      set afterBatch := processBatch upl i ((p :: rest).take batchSize) prog with hab
      set snap : UploadProgress := { afterBatch with
        current := ((p :: rest).take batchSize).getLast?.map ScrapedProduct.title }
        with hsnap
      have hslen : snap.errors.length = snap.failed := by
        simp only [hsnap]
        omega
      have hrest_len : ((p :: rest).drop batchSize).length ≤ fuel := by
        have hdl : ((p :: rest).drop batchSize).length = (p :: rest).length - batchSize := by
          simp
        simp only [List.length_cons] at hdl hfuel
        omega
      obtain ⟨ih1, ih2, ih3, ih4, ih5⟩ :=
        ih ((p :: rest).drop batchSize) (i + batchSize) snap hrest_len hslen
      have hgo : uploadGo upl batchSize (fuel + 1) (p :: rest) i prog =
          ((uploadGo upl batchSize fuel ((p :: rest).drop batchSize)
             (i + batchSize) snap).1,
           snap :: (uploadGo upl batchSize fuel ((p :: rest).drop batchSize)
             (i + batchSize) snap).2) := rfl
      have hbatchlen : ((p :: rest).take batchSize).length +
          ((p :: rest).drop batchSize).length = (p :: rest).length := by
        simp only [List.length_take, List.length_drop, List.length_cons]
        omega
      have hsc : snap.completed = afterBatch.completed := rfl
      have hsf : snap.failed = afterBatch.failed := rfl
      have hst : snap.total = prog.total := hb1
      rw [hgo]
      dsimp only
      refine ⟨by rw [ih1]; exact hst, by omega, ih3, ?_, ?_⟩
      · intro s hs
        rcases List.mem_cons.mp hs with rfl | hs'
        · exact ⟨hst, hslen, by omega, by omega, by omega⟩
        · obtain ⟨k1, k2, k3, k4, k5⟩ := ih4 s hs'
          exact ⟨by rw [k1, hst], k2, by omega, by omega, by omega⟩
      · rw [List.chain'_cons']
        refine ⟨?_, ih5⟩
        intro b hb
        have hbmem : b ∈ (uploadGo upl batchSize fuel ((p :: rest).drop batchSize)
            (i + batchSize) snap).2 := by
          exact List.mem_of_mem_head? hb
        obtain ⟨k1, k2, k3, k4, k5⟩ := ih4 b hbmem
        exact ⟨k3, k4⟩

/-! ### Domain normalizer lemmas -/

theorem takeBefore_append_all (sep : Char) (l1 l2 : List Char)
    (h : ∀ c ∈ l1, c ≠ sep) :
    takeBefore sep (l1 ++ l2) = l1 ++ takeBefore sep l2 := by
  induction l1 with
  | nil => simp
  | cons c rest ih =>
    have hc : c ≠ sep := h c (List.mem_cons_self c rest)
    have ih' := ih fun x hx => h x (List.mem_cons_of_mem c hx)
    show List.takeWhile _ ((c :: rest) ++ l2) = _
    rw [List.cons_append, List.takeWhile_cons_of_pos (by simpa using hc)]
    exact congrArg (fun x => c :: x) ih' 

theorem stripScheme_either (b : Bool) (cs : List Char) :
    stripSchemeChars ((if b then ("https://" : String) else "http://").data ++ cs) = cs := by
  cases b <;> rfl

theorem stripWww_www (cs : List Char) :
    stripWwwChars (("www." : String).data ++ cs) = cs := rfl

theorem stripWww_id (cs : List Char) (h : ¬ ("www." : String).data <+: cs) :
    stripWwwChars cs = cs := by
  unfold stripWwwChars
  split
  · rename_i rest
    exact absurd ⟨rest, rfl⟩ h
  · rfl

theorem tldPart_not_dot (c0 : Char) (tld : List Char) (h : c0 ≠ '.') :
    tldPart (c0 :: tld) = false := by
  unfold tldPart
  split
  · rename_i tld' heq
    injection heq with h1 h2
    exact absurd h1 h
  · rfl

/-- Every character of a string accepted by the validator pattern is a
label character, a dot, or a letter — in particular never `/` or `:`. -/
theorem matchesDomainPattern_chars (s : String)
    (h : matchesDomainPattern s = true) :
    ∀ c ∈ s.data, c ≠ '/' ∧ c ≠ ':' := by
  rw [matchesDomainPattern, List.any_eq_true] at h
  obtain ⟨k, _, hcond⟩ := h
  rw [Bool.and_eq_true] at hcond
  obtain ⟨hpre, htld⟩ := hcond
  have hmid : ∀ c ∈ s.data.take k, isMidChar c = true := by
    rw [goodPre] at hpre
    rw [Bool.and_eq_true] at hpre
    obtain ⟨hpre', _⟩ := hpre
    rw [Bool.and_eq_true] at hpre'
    obtain ⟨hpre'', _⟩ := hpre'
    rw [Bool.and_eq_true] at hpre''
    exact fun c hc => List.all_eq_true.mp hpre''.2 c hc
  have htldchars : ∀ c ∈ s.data.drop k, c = '.' ∨ c.isAlpha = true := by
    rcases hdrop : s.data.drop k with _ | ⟨c0, tld⟩
    · intro c hc
      simp at hc
    · rw [hdrop] at htld
      by_cases hc0 : c0 = '.'
      · subst hc0
        simp only [tldPart, Bool.and_eq_true] at htld
        intro c hc
        rcases List.mem_cons.mp hc with rfl | hmem
        · exact Or.inl rfl
        · exact Or.inr (List.all_eq_true.mp htld.2 c hmem)
      · rw [tldPart_not_dot c0 tld hc0] at htld
        exact absurd htld (by simp)
  intro c hc
  rw [← List.take_append_drop k s.data] at hc
  rcases List.mem_append.mp hc with h1 | h2
  · have hm := hmid c h1
    constructor <;> rintro rfl <;> exact absurd hm (by decide)
  · rcases htldchars c h2 with rfl | halpha
    · exact ⟨by decide, by decide⟩
    · constructor <;> rintro rfl <;> exact absurd halpha (by decide)

/-- The normalizer recovers any pattern-valid hostname that does not itself
start with `www.` from every decoration by scheme, optional `www.`, port and
path. -/
theorem extractDomain_decorate (https www : Bool) (host : String)
    (port path : Option String)
    (hpat : matchesDomainPattern host = true)
    (hwww : ¬ ("www." : String).data <+: host.data) :
    extractDomain (decorate https www host port path) = host := by
  have hchars : ∀ c ∈ host.data, c ≠ '/' ∧ c ≠ ':' :=
    matchesDomainPattern_chars host hpat
  have hW : ∀ c ∈ (if www then ("www." : String) else "").data, c ≠ '/' ∧ c ≠ ':' := by
    cases www <;> decide
  have hdata : (decorate https www host port path).data =
      (if https then ("https://" : String) else "http://").data ++
        ((if www then ("www." : String) else "").data ++
          (host.data ++ ((portStr port).data ++ (pathStr path).data))) := by
    simp [decorate, String.data_append, List.append_assoc]
  rw [extractDomain, hdata, stripScheme_either]
  have hsuffix : takeBefore ':' (takeBefore '/'
      ((portStr port).data ++ (pathStr path).data)) = [] := by
    rcases port with _ | p
    · rcases path with _ | q
      · rfl
      · show takeBefore ':' (takeBefore '/' ([] ++ ('/' :: q.data))) = []
        simp [takeBefore, List.takeWhile_cons]
    · show takeBefore ':' (takeBefore '/' ((':' :: p.data) ++ (pathStr path).data)) = []
      simp only [List.cons_append]
      simp [takeBefore, List.takeWhile_cons]
  rw [takeBefore_append_all '/' _ _ (fun c hc => (hW c hc).1),
    takeBefore_append_all '/' _ _ (fun c hc => (hchars c hc).1),
    takeBefore_append_all ':' _ _ (fun c hc => (hW c hc).2),
    takeBefore_append_all ':' _ _ (fun c hc => (hchars c hc).2),
    hsuffix, List.append_nil]
  cases www
  · show (⟨stripWwwChars (("" : String).data ++ host.data)⟩ : String) = host
    rw [show ("" : String).data = [] from rfl, List.nil_append, stripWww_id host.data hwww]
  · show (⟨stripWwwChars (("www." : String).data ++ host.data)⟩ : String) = host
    rw [stripWww_www]

/-- JavaScript `x || ""` is the identity on strings. -/
theorem jsOrEmpty_eq (s : String) : jsOrEmpty s = s := by
  unfold jsOrEmpty
  split_ifs with h
  · exact h.symm
  · rfl

/-- The retry loop only ever appends to the accumulated wait list. -/
theorem fetchWithRetryGo_waits_extend (resp : Nat → Except String HttpResponse)
    (maxRetries initialDelay : Nat) :
    ∀ (rem : Nat) (le : Option String) (ws : List Nat),
    ∃ tail, (fetchWithRetryGo resp maxRetries initialDelay rem le ws).waits =
      ws ++ tail := by
  intro rem
  induction rem with
  | zero =>
    intro le ws
    exact ⟨[], by simp [fetchWithRetryGo]⟩
  | succ rem ih =>
    intro le ws
    rcases hr : resp (maxRetries - (rem + 1)) with e | r
    · by_cases hlt : maxRetries - (rem + 1) < maxRetries - 1
      · obtain ⟨t, ht⟩ := ih (some e)
          (ws ++ [initialDelay * 2 ^ (maxRetries - (rem + 1))])
        refine ⟨[initialDelay * 2 ^ (maxRetries - (rem + 1))] ++ t, ?_⟩
        simp only [fetchWithRetryGo, hr, hlt, if_pos, ht, List.append_assoc]
      · obtain ⟨t, ht⟩ := ih (some e) ws
        exact ⟨t, by simp [fetchWithRetryGo, hr, hlt, ht]⟩
    · by_cases h429 : r.status = 429
      · by_cases hlt : maxRetries - (rem + 1) < maxRetries - 1
        · rcases hra : r.retryAfter with _ | s
          · obtain ⟨t, ht⟩ := ih le
              (ws ++ [initialDelay * 2 ^ (maxRetries - (rem + 1))])
            refine ⟨[initialDelay * 2 ^ (maxRetries - (rem + 1))] ++ t, ?_⟩
            simp only [fetchWithRetryGo, hr, h429, hra, hlt, if_pos, ht,
              List.append_assoc]
          · obtain ⟨t, ht⟩ := ih le (ws ++ [s * 1000])
            refine ⟨[s * 1000] ++ t, ?_⟩
            simp only [fetchWithRetryGo, hr, h429, hra, hlt, if_pos, ht,
              List.append_assoc]
        · exact ⟨[], by simp [fetchWithRetryGo, hr, h429, hlt]⟩
      · exact ⟨[], by simp [fetchWithRetryGo, hr, h429]⟩

/-! ## Claim theorems -/

/-- C2: every event stream of one scrape-stream run is a non-terminal prefix
followed by exactly one terminal block: either the completion block
`complete` / `products` chunks / single final `done`, or a single final
`error` event; the completion block itself ends in `done`, contains no
`error`, and contains no terminal event before its last element — so no
stream contains both terminals and no `done` follows a failure. -/
theorem C2_stream_single_terminal (f : Nat → Nat → Except String HttpResponse)
    (dom : String) :
    (∃ pre, (∀ e ∈ pre, ¬ isTerminal e) ∧
      ((∃ acc, (scrapeStreamRun f dom).1 =
          pre ++ finishEvents acc (extractDomain dom)) ∨
       (∃ m, (scrapeStreamRun f dom).1 = pre ++ [ScrapeEvent.error m]))) ∧
    (∀ (acc : List ScrapedProduct) (d' : String),
      (finishEvents acc d').getLast? = some ScrapeEvent.done ∧
      (∀ m, ScrapeEvent.error m ∉ finishEvents acc d') ∧
      (∀ e ∈ (finishEvents acc d').dropLast, ¬ isTerminal e) ∧
      finishEvents acc d' = ScrapeEvent.complete acc.length d' ::
        productChunksGo acc (numChunks acc.length) 0 (numChunks acc.length) ++
          [ScrapeEvent.done]) := by
  constructor
  · obtain ⟨pre, hpre, hdisj⟩ := streamGo_shape f (extractDomain dom) 150 1 [] []
    refine ⟨ScrapeEvent.start (extractDomain dom) :: pre, ?_, ?_⟩
    · intro e he
      rcases List.mem_cons.mp he with rfl | he'
      · simp [isTerminal]
      · exact hpre e he'
    · rcases hdisj with ⟨a, ha⟩ | ⟨m, hm⟩
      · exact Or.inl ⟨a, by simp [scrapeStreamRun, ha]⟩
      · exact Or.inr ⟨m, by simp [scrapeStreamRun, hm]⟩
  · intro acc d'
    exact ⟨finish_getLast acc d', finish_no_error acc d',
      finish_no_done_inside acc d', rfl⟩

/-- C2, witness: the terminal-event theorem at a concrete run whose fetches
all throw. -/
theorem C2_stream_single_terminal_witness :
    (∃ pre, (∀ e ∈ pre, ¬ isTerminal e) ∧
      ((∃ acc, (scrapeStreamRun (fun _ _ => Except.error "offline") "example.com").1 =
          pre ++ finishEvents acc (extractDomain "example.com")) ∨
       (∃ m, (scrapeStreamRun (fun _ _ => Except.error "offline") "example.com").1 =
          pre ++ [ScrapeEvent.error m]))) ∧
    (∀ (acc : List ScrapedProduct) (d' : String),
      (finishEvents acc d').getLast? = some ScrapeEvent.done ∧
      (∀ m, ScrapeEvent.error m ∉ finishEvents acc d') ∧
      (∀ e ∈ (finishEvents acc d').dropLast, ¬ isTerminal e) ∧
      finishEvents acc d' = ScrapeEvent.complete acc.length d' ::
        productChunksGo acc (numChunks acc.length) 0 (numChunks acc.length) ++
          [ScrapeEvent.done]) :=
  C2_stream_single_terminal (fun _ _ => Except.error "offline") "example.com"

/-- C3: on HTTP 429 the streaming fetcher waits `Retry-After × 1000` ms when
the header is present and `initialDelay × 2^attempt` otherwise, retries the
same URL up to the fixed ceiling of 5 attempts, returns the 429 response
itself when the final attempt is still rate-limited (after which the
streaming caller raises and the scrape aborts with an `error` event), and a
source answering 429/`Retry-After: 1` once and then 200 succeeds after
exactly one retry with a computed wait of 1000 ms. -/
theorem C3_rate_limit_retry (resp : Nat → Except String HttpResponse)
    (r1 r2 : HttpResponse)
    (h0 : resp 0 = Except.ok r1)
    (hrest : ∀ a, 1 ≤ a → resp a = Except.ok r2)
    (hs1 : r1.status = 429) (hra1 : r1.retryAfter = some 1)
    (hs2 : r2.status = 200) :
    fetchWithRetry resp 5 2000 = ⟨Except.ok r2, [1000]⟩ ∧
    (∀ (resp' : Nat → Except String HttpResponse) (r : HttpResponse) (s : Nat),
      resp' 0 = Except.ok r → r.status = 429 → r.retryAfter = some s →
      (fetchWithRetry resp' 5 2000).waits.head? = some (s * 1000)) ∧
    (∀ (resp' : Nat → Except String HttpResponse) (r : HttpResponse),
      resp' 0 = Except.ok r → r.status = 429 → r.retryAfter = none →
      (fetchWithRetry resp' 5 2000).waits.head? = some (2000 * 2 ^ 0)) ∧
    (∀ (r : HttpResponse), r.status = 429 → r.retryAfter = none →
      fetchWithRetry (fun _ => Except.ok r) 5 2000 =
        ⟨Except.ok r, [2000, 4000, 8000, 16000]⟩) ∧
    (∀ (r : HttpResponse) (dom : String), r.status = 429 →
      (scrapeStreamRun (fun _ _ => Except.ok r) dom).1 =
        [ScrapeEvent.start (extractDomain dom), ScrapeEvent.fetching 1 0,
         ScrapeEvent.error (fetchFailMsg 429 r.statusText)]) := by
  refine ⟨?_, ?_, ?_, ?_, ?_⟩
  · simp [fetchWithRetry, fetchWithRetryGo, h0, hs1, hra1,
      hrest 1 (by omega), hs2]
  · intro resp' r s h0' h429 hra
    have hstep : fetchWithRetryGo resp' 5 2000 5 none [] =
        fetchWithRetryGo resp' 5 2000 4 none ([] ++ [s * 1000]) := by
      simp [fetchWithRetryGo, h0', h429, hra]
    obtain ⟨tail, ht⟩ := fetchWithRetryGo_waits_extend resp' 5 2000 4 none [s * 1000]
    rw [fetchWithRetry, hstep]
    simp only [List.nil_append] at *
    rw [ht]
    simp
  · intro resp' r h0' h429 hra
    have hstep : fetchWithRetryGo resp' 5 2000 5 none [] =
        fetchWithRetryGo resp' 5 2000 4 none ([] ++ [2000 * 2 ^ 0]) := by
      simp [fetchWithRetryGo, h0', h429, hra]
    obtain ⟨tail, ht⟩ :=
      fetchWithRetryGo_waits_extend resp' 5 2000 4 none [2000 * 2 ^ 0]
    rw [fetchWithRetry, hstep]
    simp only [List.nil_append] at *
    rw [ht]
    simp
  · intro r h429 hra
    simp [fetchWithRetry, fetchWithRetryGo, h429, hra]
  · intro r dom h429
    have houtcome : (fetchWithRetry (fun _ => Except.ok r) 5 2000).outcome =
        Except.ok r := by
      rcases hra : r.retryAfter with _ | s <;>
        simp [fetchWithRetry, fetchWithRetryGo, h429, hra]
    have hloop : streamGo (fun _ _ => Except.ok r) (extractDomain dom) 150 1 [] [] =
        ([ScrapeEvent.fetching 1 0,
          ScrapeEvent.error (fetchFailMsg 429 r.statusText)], [1]) := by
      simp [streamGo, houtcome, h429, isOkStatus, eventsProducts]
    simp [scrapeStreamRun, hloop]

/-- C3, witness: the retry theorem at a concrete source that answers 429
with `Retry-After: 1` on the first attempt and 200 afterwards. -/
theorem C3_rate_limit_retry_witness :
    fetchWithRetry c3resp 5 2000 = ⟨Except.ok c3ok, [1000]⟩ ∧
    (∀ (resp' : Nat → Except String HttpResponse) (r : HttpResponse) (s : Nat),
      resp' 0 = Except.ok r → r.status = 429 → r.retryAfter = some s →
      (fetchWithRetry resp' 5 2000).waits.head? = some (s * 1000)) ∧
    (∀ (resp' : Nat → Except String HttpResponse) (r : HttpResponse),
      resp' 0 = Except.ok r → r.status = 429 → r.retryAfter = none →
      (fetchWithRetry resp' 5 2000).waits.head? = some (2000 * 2 ^ 0)) ∧
    (∀ (r : HttpResponse), r.status = 429 → r.retryAfter = none →
      fetchWithRetry (fun _ => Except.ok r) 5 2000 =
        ⟨Except.ok r, [2000, 4000, 8000, 16000]⟩) ∧
    (∀ (r : HttpResponse) (dom : String), r.status = 429 →
      (scrapeStreamRun (fun _ _ => Except.ok r) dom).1 =
        [ScrapeEvent.start (extractDomain dom), ScrapeEvent.fetching 1 0,
         ScrapeEvent.error (fetchFailMsg 429 r.statusText)]) :=
  C3_rate_limit_retry c3resp c3limited c3ok rfl
    (fun a ha => by
      have hne : ¬ a = 0 := by omega
      simp [c3resp, hne])
    rfl rfl rfl

/-- C1, counterexample: a source whose pages 1–3 return 250/250/10 products
does not always yield 510 products — when the products carry a falsy
`handle`, the URL-annotation pass throws `"Invalid product object"` during
page 1, the non-streaming scraper returns `success: false` with no
products after requesting only page 1, and the streaming run dies with a
terminal `error` event delivering zero products. -/
theorem C1_counterexample :
    pageLen (c1BadSource 1) = some 250 ∧
    pageLen (c1BadSource 2) = some 250 ∧
    pageLen (c1BadSource 3) = some 10 ∧
    (scrapeShopifyStore c1BadSource "example.com").1.success = false ∧
    (scrapeShopifyStore c1BadSource "example.com").1.products = none ∧
    (scrapeShopifyStore c1BadSource "example.com").1.error =
      some "Invalid product object" ∧
    (scrapeShopifyStore c1BadSource "example.com").2 = [1] ∧
    (scrapeStreamRun (pageSource c1BadSource) "example.com").1.getLast? =
      some (ScrapeEvent.error "Invalid product object") ∧
    eventsProducts (scrapeStreamRun (pageSource c1BadSource) "example.com").1 = [] :=
  ⟨by decide, by decide, by decide, by decide, by decide, by decide, by decide,
   by decide, by decide⟩

/-- C1, amended: for every paginated source whose pages 1 and 2 each return
250 products and whose page 3 returns 10 products, **all with truthy
handles**, both the non-streaming `scrapeShopifyStore` and the streaming
scrape loop return exactly 510 products, accumulated in increasing page
order, and never request page 4 (the pages requested are exactly
`[1, 2, 3]`); in general the loop stops right after the first page with
fewer than 250 products, and an empty page stops it without appending
anything. -/
theorem C1_pagination (resp : Nat → HttpResponse) (dom : String)
    (p1 p2 p3 : List ScrapedProduct)
    (h1s : (resp 1).status = 200)
    (h1b : (resp 1).body = ResponseBody.productsList p1)
    (h2s : (resp 2).status = 200)
    (h2b : (resp 2).body = ResponseBody.productsList p2)
    (h3s : (resp 3).status = 200)
    (h3b : (resp 3).body = ResponseBody.productsList p3)
    (hl1 : p1.length = 250) (hl2 : p2.length = 250) (hl3 : p3.length = 10)
    (hh1 : ∀ p ∈ p1, p.handle ≠ "") (hh2 : ∀ p ∈ p2, p.handle ≠ "")
    (hh3 : ∀ p ∈ p3, p.handle ≠ "") :
    (scrapeShopifyStore resp dom).1.products =
      some (p1.map (withUrl (extractDomain dom)) ++
        p2.map (withUrl (extractDomain dom)) ++
        p3.map (withUrl (extractDomain dom))) ∧
    (scrapeShopifyStore resp dom).1.count = some 510 ∧
    (scrapeShopifyStore resp dom).1.success = true ∧
    (scrapeShopifyStore resp dom).2 = [1, 2, 3] ∧
    eventsProducts (scrapeStreamRun (pageSource resp) dom).1 =
      p1.map (withUrl (extractDomain dom)) ++
        p2.map (withUrl (extractDomain dom)) ++
        p3.map (withUrl (extractDomain dom)) ∧
    (scrapeStreamRun (pageSource resp) dom).2 = [1, 2, 3] ∧
    (∀ (src : Nat → HttpResponse) (d' : String) (maxP fuel page : Nat)
       (acc : List ScrapedProduct) (reqs : List Nat) (ps : List ScrapedProduct),
      isOkStatus (src page).status →
      (src page).body = ResponseBody.productsList ps →
      0 < ps.length → ps.length < 250 → (∀ p ∈ ps, p.handle ≠ "") →
      scrapeGo src d' true maxP (fuel + 1) page acc reqs =
        (Except.ok (acc ++ ps.map (withUrl d')), reqs ++ [page])) ∧
    (∀ (src : Nat → HttpResponse) (d' : String) (maxP fuel page : Nat)
       (acc : List ScrapedProduct) (reqs : List Nat),
      isOkStatus (src page).status →
      (src page).body = ResponseBody.productsList [] →
      scrapeGo src d' true maxP (fuel + 1) page acc reqs =
        (Except.ok acc, reqs ++ [page])) := by
  have hok1 : isOkStatus (resp 1).status := by rw [h1s]; decide
  have hok2 : isOkStatus (resp 2).status := by rw [h2s]; decide
  have hok3 : isOkStatus (resp 3).status := by rw [h3s]; decide
  set d := extractDomain dom with hd
  have s1 : scrapeGo resp d true 250000 100 1 [] [] =
      scrapeGo resp d true 250000 99 2 ([] ++ p1.map (withUrl d)) ([] ++ [1]) :=
    scrapeGo_step_full resp d 250000 99 1 [] [] p1 hok1 h1b hl1 hh1 (by omega)
  have s2 : scrapeGo resp d true 250000 99 2 ([] ++ p1.map (withUrl d)) ([] ++ [1]) =
      scrapeGo resp d true 250000 98 3
        (([] ++ p1.map (withUrl d)) ++ p2.map (withUrl d)) (([] ++ [1]) ++ [2]) :=
    scrapeGo_step_full resp d 250000 98 2 _ _ p2 hok2 h2b hl2 hh2 (by omega)
  have s3 : scrapeGo resp d true 250000 98 3
      (([] ++ p1.map (withUrl d)) ++ p2.map (withUrl d)) (([] ++ [1]) ++ [2]) =
      (Except.ok ((([] ++ p1.map (withUrl d)) ++ p2.map (withUrl d)) ++
        p3.map (withUrl d)), (([] ++ [1]) ++ [2]) ++ [3]) :=
    scrapeGo_step_short resp d 250000 97 3 _ _ p3 hok3 h3b (by omega) (by omega) hh3
  have hrun : scrapeGo resp d true 250000 100 1 [] [] =
      (Except.ok (p1.map (withUrl d) ++ p2.map (withUrl d) ++ p3.map (withUrl d)),
       [1, 2, 3]) := by
    rw [s1, s2, s3]
    simp
  have hstore : scrapeShopifyStore resp dom =
      ({ success := true,
         products := some (p1.map (withUrl d) ++ p2.map (withUrl d) ++
           p3.map (withUrl d)),
         count := some (p1.map (withUrl d) ++ p2.map (withUrl d) ++
           p3.map (withUrl d)).length,
         error := none, storeDomain := some d }, [1, 2, 3]) := by
    unfold scrapeShopifyStore
    dsimp only
    rw [hrun]
  have hlen510 : (p1.map (withUrl d) ++ p2.map (withUrl d) ++
      p3.map (withUrl d)).length = 510 := by
    simp [hl1, hl2, hl3]
  have hf1 : (fetchWithRetry (pageSource resp 1) 5 2000).outcome =
      Except.ok (resp 1) := by
    rw [fetchWithRetry_first_ok (pageSource resp 1) (resp 1) rfl
      (by rw [h1s]; decide)]
  have hf2 : (fetchWithRetry (pageSource resp 2) 5 2000).outcome =
      Except.ok (resp 2) := by
    rw [fetchWithRetry_first_ok (pageSource resp 2) (resp 2) rfl
      (by rw [h2s]; decide)]
  have hf3 : (fetchWithRetry (pageSource resp 3) 5 2000).outcome =
      Except.ok (resp 3) := by
    rw [fetchWithRetry_first_ok (pageSource resp 3) (resp 3) rfl
      (by rw [h3s]; decide)]
  have t1 : streamGo (pageSource resp) d 150 1 [] [] =
      (ScrapeEvent.fetching 1 ([] : List ScrapedProduct).length ::
        ScrapeEvent.progress 1 p1.length ([] ++ p1.map (withUrl d)).length ::
        (stepTail p1.length 2 ([] ++ p1.map (withUrl d)).length ++
          (streamGo (pageSource resp) d 149 2 ([] ++ p1.map (withUrl d))
            ([] ++ [1])).1),
       (streamGo (pageSource resp) d 149 2 ([] ++ p1.map (withUrl d))
         ([] ++ [1])).2) :=
    streamGo_step_full (pageSource resp) d 149 1 [] [] (resp 1) p1 hf1 hok1 h1b
      hl1 hh1 (by omega)
  have t2 : streamGo (pageSource resp) d 149 2 ([] ++ p1.map (withUrl d))
      ([] ++ [1]) =
      (ScrapeEvent.fetching 2 ([] ++ p1.map (withUrl d)).length ::
        ScrapeEvent.progress 2 p2.length
          (([] ++ p1.map (withUrl d)) ++ p2.map (withUrl d)).length ::
        (stepTail p2.length 3
          (([] ++ p1.map (withUrl d)) ++ p2.map (withUrl d)).length ++
          (streamGo (pageSource resp) d 148 3
            (([] ++ p1.map (withUrl d)) ++ p2.map (withUrl d))
            (([] ++ [1]) ++ [2])).1),
       (streamGo (pageSource resp) d 148 3
         (([] ++ p1.map (withUrl d)) ++ p2.map (withUrl d))
         (([] ++ [1]) ++ [2])).2) :=
    streamGo_step_full (pageSource resp) d 148 2 _ _ (resp 2) p2 hf2 hok2 h2b
      hl2 hh2 (by omega)
  have t3 : streamGo (pageSource resp) d 148 3
      (([] ++ p1.map (withUrl d)) ++ p2.map (withUrl d)) (([] ++ [1]) ++ [2]) =
      (ScrapeEvent.fetching 3
        (([] ++ p1.map (withUrl d)) ++ p2.map (withUrl d)).length ::
        ScrapeEvent.progress 3 p3.length
          ((([] ++ p1.map (withUrl d)) ++ p2.map (withUrl d)) ++
            p3.map (withUrl d)).length ::
        finishEvents ((([] ++ p1.map (withUrl d)) ++ p2.map (withUrl d)) ++
          p3.map (withUrl d)) d,
       ((([] ++ [1]) ++ [2]) ++ [3])) :=
    streamGo_step_short (pageSource resp) d 147 3 _ _ (resp 3) p3 hf3 hok3 h3b
      (by omega) (by omega) hh3 (by omega)
  have hev : eventsProducts (scrapeStreamRun (pageSource resp) dom).1 =
      p1.map (withUrl d) ++ p2.map (withUrl d) ++ p3.map (withUrl d) := by
    show eventsProducts (ScrapeEvent.start d ::
      (streamGo (pageSource resp) d 150 1 [] []).1) = _
    rw [t1, t2, t3]
    rw [eventsProducts_obs_cons _ (by trivial),
      eventsProducts_obs_cons _ (by trivial),
      eventsProducts_obs_cons _ (by trivial),
      eventsProducts_append, eventsProducts_stepTail,
      eventsProducts_obs_cons _ (by trivial),
      eventsProducts_obs_cons _ (by trivial),
      eventsProducts_append, eventsProducts_stepTail,
      eventsProducts_obs_cons _ (by trivial),
      eventsProducts_obs_cons _ (by trivial),
      eventsProducts_finish]
    simp
  have hreqs : (scrapeStreamRun (pageSource resp) dom).2 = [1, 2, 3] := by
    show (streamGo (pageSource resp) d 150 1 [] []).2 = _
    rw [t1, t2, t3]
    simp
  refine ⟨?_, ?_, ?_, ?_, hev, hreqs, ?_, ?_⟩
  · rw [hstore]
  · rw [hstore]
    simpa using hlen510
  · rw [hstore]
  · rw [hstore]
  · intro src d' maxP fuel page acc reqs ps hok hbody hpos hshort hh
    exact scrapeGo_step_short src d' maxP fuel page acc reqs ps hok hbody hpos
      hshort hh
  · intro src d' maxP fuel page acc reqs hok hbody
    exact scrapeGo_step_empty src d' maxP fuel page acc reqs hok hbody

/-- C1, witness: the amended pagination theorem at a concrete source with
250/250/10 valid products per page. -/
theorem C1_pagination_witness :
    (scrapeShopifyStore c1GoodSource "example.com").1.products =
      some ((List.replicate 250 c8Product).map (withUrl (extractDomain "example.com")) ++
        (List.replicate 250 c8Product).map (withUrl (extractDomain "example.com")) ++
        (List.replicate 10 c8Product).map (withUrl (extractDomain "example.com"))) ∧
    (scrapeShopifyStore c1GoodSource "example.com").1.count = some 510 ∧
    (scrapeShopifyStore c1GoodSource "example.com").1.success = true ∧
    (scrapeShopifyStore c1GoodSource "example.com").2 = [1, 2, 3] ∧
    eventsProducts (scrapeStreamRun (pageSource c1GoodSource) "example.com").1 =
      (List.replicate 250 c8Product).map (withUrl (extractDomain "example.com")) ++
        (List.replicate 250 c8Product).map (withUrl (extractDomain "example.com")) ++
        (List.replicate 10 c8Product).map (withUrl (extractDomain "example.com")) ∧
    (scrapeStreamRun (pageSource c1GoodSource) "example.com").2 = [1, 2, 3] ∧
    (∀ (src : Nat → HttpResponse) (d' : String) (maxP fuel page : Nat)
       (acc : List ScrapedProduct) (reqs : List Nat) (ps : List ScrapedProduct),
      isOkStatus (src page).status →
      (src page).body = ResponseBody.productsList ps →
      0 < ps.length → ps.length < 250 → (∀ p ∈ ps, p.handle ≠ "") →
      scrapeGo src d' true maxP (fuel + 1) page acc reqs =
        (Except.ok (acc ++ ps.map (withUrl d')), reqs ++ [page])) ∧
    (∀ (src : Nat → HttpResponse) (d' : String) (maxP fuel page : Nat)
       (acc : List ScrapedProduct) (reqs : List Nat),
      isOkStatus (src page).status →
      (src page).body = ResponseBody.productsList [] →
      scrapeGo src d' true maxP (fuel + 1) page acc reqs =
        (Except.ok acc, reqs ++ [page])) :=
  C1_pagination c1GoodSource "example.com"
    (List.replicate 250 c8Product) (List.replicate 250 c8Product)
    (List.replicate 10 c8Product)
    rfl rfl rfl rfl rfl rfl (by simp) (by simp) (by simp)
    (fun p hp => by rw [List.eq_of_mem_replicate hp]; decide)
    (fun p hp => by rw [List.eq_of_mem_replicate hp]; decide)
    (fun p hp => by rw [List.eq_of_mem_replicate hp]; decide)

/-- C4: in every streaming scrape run whose pages `1 … n-1` are full valid
pages and whose page `n > 1` answers HTTP 400 (such a page is only ever
requested for `n ≤ 150`), the loop stops cleanly: the stream emits the
pagination-limit `warning`, keeps exactly the products accumulated from the
earlier pages, contains no `error` event, and terminates with `done` (a
success, with `complete` and the `products` chunks). -/
theorem C4_400_stops_cleanly (resp : Nat → HttpResponse) (dom : String)
    (pages : Nat → List ScrapedProduct) (n : Nat)
    (hn2 : 2 ≤ n) (hn150 : n ≤ 150)
    (hfull : ∀ j, 1 ≤ j → j < n →
      (resp j).status = 200 ∧
      (resp j).body = ResponseBody.productsList (pages j) ∧
      (pages j).length = 250 ∧ ∀ p ∈ pages j, p.handle ≠ "")
    (h400 : (resp n).status = 400) :
    (scrapeStreamRun (pageSource resp) dom).1.getLast? = some ScrapeEvent.done ∧
    (∀ m, ScrapeEvent.error m ∉ (scrapeStreamRun (pageSource resp) dom).1) ∧
    ScrapeEvent.warning (warn400Msg n
      (annotJoin (extractDomain dom) pages 1 (n - 1)).length) ∈
      (scrapeStreamRun (pageSource resp) dom).1 ∧
    eventsProducts (scrapeStreamRun (pageSource resp) dom).1 =
      annotJoin (extractDomain dom) pages 1 (n - 1) := by
  set d := extractDomain dom with hd
  have hfwr : ∀ j, 1 ≤ j → j < n → fullPageAt (pageSource resp) pages j := by
    intro j h1 h2
    obtain ⟨hs, hb, hl, hh⟩ := hfull j h1 h2
    refine ⟨⟨resp j, ?_, ?_, hb⟩, hl, hh⟩
    · rw [fetchWithRetry_first_ok (pageSource resp j) (resp j) rfl
        (by rw [hs]; decide)]
    · rw [hs]
      decide
  have hfwrn : (fetchWithRetry (pageSource resp n) 5 2000).outcome =
      Except.ok (resp n) := by
    rw [fetchWithRetry_first_ok (pageSource resp n) (resp n) rfl
      (by rw [h400]; decide)]
  obtain ⟨pre, hpre, hpref⟩ := streamGo_run_fullPages (pageSource resp) d pages
    (n - 1) 1 [] [] (151 - n) (by omega) (fun j hj1 hj2 => hfwr j hj1 (by omega))
  have hfuel : (151 - n) + (n - 1) = 150 := by omega
  have hpage : 1 + (n - 1) = n := by omega
  rw [hfuel, hpage] at hpref
  have h151 : 151 - n = (150 - n) + 1 := by omega
  rw [h151] at hpref
  have hstepn := streamGo_step_400 (pageSource resp) d (150 - n) n
    ([] ++ annotJoin d pages 1 (n - 1)) ([] ++ pageList 1 (n - 1)) (resp n)
    hfwrn h400 (by omega)
  rw [hstepn] at hpref
  simp only [List.nil_append] at hpref
  set A := annotJoin d pages 1 (n - 1) with hA
  have hevs : (scrapeStreamRun (pageSource resp) dom).1 =
      ScrapeEvent.start d ::
        (pre ++ (ScrapeEvent.fetching n A.length ::
          ScrapeEvent.warning (warn400Msg n A.length) :: finishEvents A d)) := by
    show ScrapeEvent.start d :: (streamGo (pageSource resp) d 150 1 [] []).1 = _
    rw [hpref]
  refine ⟨?_, ?_, ?_, ?_⟩
  · rw [hevs]
    have hshape : ScrapeEvent.start d ::
        (pre ++ (ScrapeEvent.fetching n A.length ::
          ScrapeEvent.warning (warn400Msg n A.length) :: finishEvents A d)) =
        (ScrapeEvent.start d :: (pre ++ [ScrapeEvent.fetching n A.length,
          ScrapeEvent.warning (warn400Msg n A.length)])) ++ finishEvents A d := by
      simp
    rw [hshape, List.getLast?_append, finish_getLast]
    rfl
  · intro m hm
    rw [hevs] at hm
    rcases List.mem_cons.mp hm with h | hm'
    · exact ScrapeEvent.noConfusion h
    · rcases List.mem_append.mp hm' with h | hm''
      · exact obsEvent_not_terminal (hpre _ h) (Or.inr ⟨m, rfl⟩)
      · rcases List.mem_cons.mp hm'' with h | hm3
        · exact ScrapeEvent.noConfusion h
        · rcases List.mem_cons.mp hm3 with h | hm4
          · exact ScrapeEvent.noConfusion h
          · exact finish_no_error A d m hm4
  · rw [hevs]
    exact List.mem_cons_of_mem _ (List.mem_append_right pre
      (List.mem_cons_of_mem _ (List.mem_cons_self _ _)))
  · rw [hevs, eventsProducts_obs_cons _ (by trivial), eventsProducts_append,
      eventsProducts_obs pre hpre, eventsProducts_obs_cons _ (by trivial),
      eventsProducts_obs_cons _ (by trivial), eventsProducts_finish,
      List.nil_append]

/-- C4, witness: the graceful-400 theorem at a source with one full valid
page and HTTP 400 from page 2 on. -/
theorem C4_400_stops_cleanly_witness :
    (scrapeStreamRun (pageSource c4Source) "example.com").1.getLast? =
      some ScrapeEvent.done ∧
    (∀ m, ScrapeEvent.error m ∉ (scrapeStreamRun (pageSource c4Source) "example.com").1) ∧
    ScrapeEvent.warning (warn400Msg 2
      (annotJoin (extractDomain "example.com") c4Pages 1 1).length) ∈
      (scrapeStreamRun (pageSource c4Source) "example.com").1 ∧
    eventsProducts (scrapeStreamRun (pageSource c4Source) "example.com").1 =
      annotJoin (extractDomain "example.com") c4Pages 1 1 :=
  C4_400_stops_cleanly c4Source "example.com" c4Pages 2 (by omega) (by omega)
    (fun j hj1 hj2 => by
      have hj : j = 1 := by omega
      subst hj
      refine ⟨rfl, rfl, by simp [c4Pages], fun p hp => ?_⟩
      rw [List.eq_of_mem_replicate hp]
      decide)
    rfl

/-- C10: if any product of any successfully fetched page has a falsy handle,
`getShopifyProductUrl` throws `"Invalid product object"` and the entire run
fails with zero products — the streaming run terminates in an `error` event
without any `products` chunk and the non-streaming scraper returns
`success: false` — even when every product of every earlier page was valid;
conversely, every product of any successful result (both scrapers) carries
the canonical URL `https://{domain}/products/{handle}`. -/
theorem C10_invalid_handle (resp : Nat → HttpResponse) (dom : String)
    (pages : Nat → List ScrapedProduct) (n : Nat) (psn : List ScrapedProduct)
    (hn1 : 1 ≤ n) (hn150 : n ≤ 150)
    (hfull : ∀ j, 1 ≤ j → j < n →
      (resp j).status = 200 ∧
      (resp j).body = ResponseBody.productsList (pages j) ∧
      (pages j).length = 250 ∧ ∀ p ∈ pages j, p.handle ≠ "")
    (hns : (resp n).status = 200)
    (hnb : (resp n).body = ResponseBody.productsList psn)
    (hbad : ∃ p ∈ psn, p.handle = "") :
    (scrapeStreamRun (pageSource resp) dom).1.getLast? =
      some (ScrapeEvent.error "Invalid product object") ∧
    ScrapeEvent.done ∉ (scrapeStreamRun (pageSource resp) dom).1 ∧
    eventsProducts (scrapeStreamRun (pageSource resp) dom).1 = [] ∧
    (n ≤ 100 →
      (scrapeShopifyStore resp dom).1.success = false ∧
      (scrapeShopifyStore resp dom).1.products = none ∧
      (scrapeShopifyStore resp dom).1.error = some "Invalid product object") ∧
    (∀ (src' : Nat → HttpResponse) (dom' : String) (l : List ScrapedProduct),
      (scrapeShopifyStore src' dom').1.products = some l →
      ∀ p ∈ l, hasCanonicalUrl (extractDomain dom') p) ∧
    (∀ (f' : Nat → Nat → Except String HttpResponse) (dom' : String),
      ∀ p ∈ eventsProducts (scrapeStreamRun f' dom').1,
        hasCanonicalUrl (extractDomain dom') p) := by
  set d := extractDomain dom with hd
  have hfwr : ∀ j, 1 ≤ j → j < n → fullPageAt (pageSource resp) pages j := by
    intro j h1 h2
    obtain ⟨hs, hb, hl, hh⟩ := hfull j h1 h2
    refine ⟨⟨resp j, ?_, ?_, hb⟩, hl, hh⟩
    · rw [fetchWithRetry_first_ok (pageSource resp j) (resp j) rfl
        (by rw [hs]; decide)]
    · rw [hs]
      decide
  have hfwrn : (fetchWithRetry (pageSource resp n) 5 2000).outcome =
      Except.ok (resp n) := by
    rw [fetchWithRetry_first_ok (pageSource resp n) (resp n) rfl
      (by rw [hns]; decide)]
  have hokn : isOkStatus (resp n).status := by
    rw [hns]
    decide
  obtain ⟨pre, hpre, hpref⟩ := streamGo_run_fullPages (pageSource resp) d pages
    (n - 1) 1 [] [] (151 - n) (by omega) (fun j hj1 hj2 => hfwr j hj1 (by omega))
  have hfuel : (151 - n) + (n - 1) = 150 := by omega
  have hpage : 1 + (n - 1) = n := by omega
  rw [hfuel, hpage] at hpref
  have h151 : 151 - n = (150 - n) + 1 := by omega
  rw [h151] at hpref
  have hstepn := streamGo_step_badHandle (pageSource resp) d (150 - n) n
    ([] ++ annotJoin d pages 1 (n - 1)) ([] ++ pageList 1 (n - 1)) (resp n)
    psn hfwrn hokn hnb hbad
  rw [hstepn] at hpref
  simp only [List.nil_append] at hpref
  set A := annotJoin d pages 1 (n - 1) with hA
  have hevs : (scrapeStreamRun (pageSource resp) dom).1 =
      ScrapeEvent.start d ::
        (pre ++ [ScrapeEvent.fetching n A.length,
          ScrapeEvent.error "Invalid product object"]) := by
    show ScrapeEvent.start d :: (streamGo (pageSource resp) d 150 1 [] []).1 = _
    rw [hpref]
  refine ⟨?_, ?_, ?_, ?_, ?_, ?_⟩
  · rw [hevs]
    have hshape : ScrapeEvent.start d ::
        (pre ++ [ScrapeEvent.fetching n A.length,
          ScrapeEvent.error "Invalid product object"]) =
        (ScrapeEvent.start d :: (pre ++ [ScrapeEvent.fetching n A.length])) ++
          [ScrapeEvent.error "Invalid product object"] := by
      simp
    rw [hshape, List.getLast?_concat]
  · intro hm
    rw [hevs] at hm
    rcases List.mem_cons.mp hm with h | hm'
    · exact ScrapeEvent.noConfusion h
    · rcases List.mem_append.mp hm' with h | hm''
      · exact obsEvent_not_terminal (hpre _ h) (Or.inl rfl)
      · rcases List.mem_cons.mp hm'' with h | hm3
        · exact ScrapeEvent.noConfusion h
        · rcases List.mem_cons.mp hm3 with h | hm4
          · exact ScrapeEvent.noConfusion h
          · exact absurd hm4 (List.not_mem_nil _)
  · rw [hevs, eventsProducts_obs_cons _ (by trivial), eventsProducts_append,
      eventsProducts_obs pre hpre, List.nil_append]
    rfl
  · intro hn100
    have hplain : ∀ j, 1 ≤ j → j < n → plainFullPageAt resp pages j := by
      intro j h1 h2
      obtain ⟨hs, hb, hl, hh⟩ := hfull j h1 h2
      exact ⟨by rw [hs]; decide, hb, hl, hh⟩
    have hgpref := scrapeGo_run_fullPages resp d 250000 pages (n - 1) 1 [] []
      (101 - n) (by omega) (fun j hj1 hj2 => hplain j hj1 (by omega))
    have hgfuel : (101 - n) + (n - 1) = 100 := by omega
    rw [hgfuel, hpage] at hgpref
    have h101 : 101 - n = (100 - n) + 1 := by omega
    rw [h101] at hgpref
    have hgstep := scrapeGo_step_badHandle resp d 250000 (100 - n) n
      ([] ++ annotJoin d pages 1 (n - 1)) ([] ++ pageList 1 (n - 1)) psn
      hokn hnb hbad
    rw [hgstep] at hgpref
    have hstore : scrapeShopifyStore resp dom =
        ({ success := false, products := none, count := none,
           error := some "Invalid product object", storeDomain := none },
         ([] ++ pageList 1 (n - 1)) ++ [n]) := by
      unfold scrapeShopifyStore
      dsimp only
      rw [hgpref]
    rw [hstore]
    exact ⟨rfl, rfl, rfl⟩
  · intro src' dom' l hl p hp
    have hgo : (scrapeGo src' (extractDomain dom') true 250000 100 1 [] []).1 =
        Except.ok l := by
      unfold scrapeShopifyStore at hl
      dsimp only at hl
      rcases hres : scrapeGo src' (extractDomain dom') true 250000 100 1 [] []
        with ⟨out, reqs⟩
      rw [hres] at hl
      rcases out with e | ps
      · simp at hl
      · simp at hl
        simp [hl]
    exact scrapeGo_ok_urls src' (extractDomain dom') true 250000 100 1 [] [] l
      (by intro p hp; exact absurd hp (List.not_mem_nil p)) hgo p hp
  · intro f' dom' p hp
    have hp' : p ∈ eventsProducts
        (streamGo f' (extractDomain dom') 150 1 [] []).1 := by
      have : (scrapeStreamRun f' dom').1 = ScrapeEvent.start (extractDomain dom') ::
          (streamGo f' (extractDomain dom') 150 1 [] []).1 := rfl
      rw [this, eventsProducts_obs_cons _ (by trivial)] at hp
      exact hp
    exact streamGo_products_urls f' (extractDomain dom') 150 1 [] []
      (by intro q hq; exact absurd hq (List.not_mem_nil q)) p hp'

/-- C10, witness: the invalid-handle theorem at a source whose first page
contains products with empty handles. -/
theorem C10_invalid_handle_witness :
    (scrapeStreamRun (pageSource c1BadSource) "example.com").1.getLast? =
      some (ScrapeEvent.error "Invalid product object") ∧
    ScrapeEvent.done ∉ (scrapeStreamRun (pageSource c1BadSource) "example.com").1 ∧
    eventsProducts (scrapeStreamRun (pageSource c1BadSource) "example.com").1 = [] ∧
    (1 ≤ 100 →
      (scrapeShopifyStore c1BadSource "example.com").1.success = false ∧
      (scrapeShopifyStore c1BadSource "example.com").1.products = none ∧
      (scrapeShopifyStore c1BadSource "example.com").1.error =
        some "Invalid product object") ∧
    (∀ (src' : Nat → HttpResponse) (dom' : String) (l : List ScrapedProduct),
      (scrapeShopifyStore src' dom').1.products = some l →
      ∀ p ∈ l, hasCanonicalUrl (extractDomain dom') p) ∧
    (∀ (f' : Nat → Nat → Except String HttpResponse) (dom' : String),
      ∀ p ∈ eventsProducts (scrapeStreamRun f' dom').1,
        hasCanonicalUrl (extractDomain dom') p) :=
  C10_invalid_handle c1BadSource "example.com" (fun _ => [])
    1 (List.replicate 250 badHandleProduct) (by omega) (by omega)
    (fun j hj1 hj2 => absurd (hj1.trans_lt hj2) (by omega))
    rfl rfl ⟨badHandleProduct, by simp, rfl⟩

/-- C5: in an upload of three valid products where exactly the second
product's creation resolves with a platform user-error and the other two
succeed, `uploadProducts` returns `completed = 2`, `failed = 1`, and exactly
one error entry whose `productTitle` is the second product's title; and in
general one item's failure never prevents the rest of the batch or later
batches from being processed — every input item is counted exactly once. -/
theorem C5_upload_partial_failure (p1 p2 p3 : ScrapedProduct)
    (upl : Nat → SettledResult) (e : String)
    (h0 : upl 0 = SettledResult.fulfilled true none)
    (h1 : upl 1 = SettledResult.fulfilled false (some e))
    (h2 : upl 2 = SettledResult.fulfilled true none) :
    (uploadProducts upl [p1, p2, p3] 10).1.total = 3 ∧
    (uploadProducts upl [p1, p2, p3] 10).1.completed = 2 ∧
    (uploadProducts upl [p1, p2, p3] 10).1.failed = 1 ∧
    (uploadProducts upl [p1, p2, p3] 10).1.errors = [(p2.title, e)] ∧
    (∀ (upl' : Nat → SettledResult) (ps : List ScrapedProduct) (bs : Nat),
      1 ≤ bs →
      (uploadProducts upl' ps bs).1.completed +
        (uploadProducts upl' ps bs).1.failed = ps.length) := by
  refine ⟨?_, ?_, ?_, ?_, ?_⟩
  · simp [uploadProducts, uploadGo, processBatch, h0, h1, h2, settledErrorString]
  · simp [uploadProducts, uploadGo, processBatch, h0, h1, h2, settledErrorString]
  · simp [uploadProducts, uploadGo, processBatch, h0, h1, h2, settledErrorString]
  · simp [uploadProducts, uploadGo, processBatch, h0, h1, h2, settledErrorString]
  · intro upl' ps bs hbs
    obtain ⟨_, hsum, _, _, _⟩ := uploadGo_spec upl' bs hbs ps.length ps 0
      { total := ps.length, completed := 0, failed := 0,
        current := none, errors := [] } (le_refl _) rfl
    simpa using hsum

/-- C5, witness: the partial-failure theorem at three concrete products with
the second upload failing with message `boom`. -/
theorem C5_upload_partial_failure_witness :
    (uploadProducts c5upl [c8Product, c8Product, c8Product] 10).1.total = 3 ∧
    (uploadProducts c5upl [c8Product, c8Product, c8Product] 10).1.completed = 2 ∧
    (uploadProducts c5upl [c8Product, c8Product, c8Product] 10).1.failed = 1 ∧
    (uploadProducts c5upl [c8Product, c8Product, c8Product] 10).1.errors =
      [(c8Product.title, "boom")] ∧
    (∀ (upl' : Nat → SettledResult) (ps : List ScrapedProduct) (bs : Nat),
      1 ≤ bs →
      (uploadProducts upl' ps bs).1.completed +
        (uploadProducts upl' ps bs).1.failed = ps.length) :=
  C5_upload_partial_failure c8Product c8Product c8Product c5upl "boom"
    rfl rfl rfl

/-- C6: within one `uploadProducts` run the accumulator's `total` is fixed
at the input length, `completed + failed` never exceeds `total` at any
`onProgress` snapshot, both counters are monotone across the snapshot
sequence, and at the end `completed + failed = total` with one recorded
error per failure. -/
theorem C6_upload_progress (upl : Nat → SettledResult)
    (products : List ScrapedProduct) (batchSize : Nat) (hbs : 1 ≤ batchSize) :
    (uploadProducts upl products batchSize).1.total = products.length ∧
    (uploadProducts upl products batchSize).1.completed +
      (uploadProducts upl products batchSize).1.failed = products.length ∧
    (uploadProducts upl products batchSize).1.errors.length =
      (uploadProducts upl products batchSize).1.failed ∧
    (∀ s ∈ (uploadProducts upl products batchSize).2,
      s.total = products.length ∧ s.completed + s.failed ≤ products.length ∧
      s.errors.length = s.failed) ∧
    List.Chain' progLE (uploadProducts upl products batchSize).2 := by
  obtain ⟨h1, h2, h3, h4, h5⟩ := uploadGo_spec upl batchSize hbs products.length
    products 0
    { total := products.length, completed := 0, failed := 0,
      current := none, errors := [] } (le_refl _) rfl
  refine ⟨h1, by simpa using h2, h3, ?_, h5⟩
  intro s hs
  obtain ⟨k1, k2, _, _, k5⟩ := h4 s hs
  exact ⟨k1, by simpa using k5, k2⟩

/-- C6, witness: the progress-invariant theorem at a two-element upload in
batches of one. -/
theorem C6_upload_progress_witness :
    (uploadProducts c5upl [c8Product, c8Product] 1).1.total =
      [c8Product, c8Product].length ∧
    (uploadProducts c5upl [c8Product, c8Product] 1).1.completed +
      (uploadProducts c5upl [c8Product, c8Product] 1).1.failed =
      [c8Product, c8Product].length ∧
    (uploadProducts c5upl [c8Product, c8Product] 1).1.errors.length =
      (uploadProducts c5upl [c8Product, c8Product] 1).1.failed ∧
    (∀ s ∈ (uploadProducts c5upl [c8Product, c8Product] 1).2,
      s.total = [c8Product, c8Product].length ∧
      s.completed + s.failed ≤ [c8Product, c8Product].length ∧
      s.errors.length = s.failed) ∧
    List.Chain' progLE (uploadProducts c5upl [c8Product, c8Product] 1).2 :=
  C6_upload_progress c5upl [c8Product, c8Product] 1 (by omega)

/-- C7, counterexample: the hostname `www.example.com` is accepted by the
validator's pattern, yet `extractDomain` of its `http://`-decorated form
(scheme only, no added `www.`, no port, no path) strips the host's own
leading `www.` and returns `example.com`, not the hostname itself — so the
claim's universally quantified identity fails. -/
theorem C7_counterexample :
    matchesDomainPattern "www.example.com" = true ∧
    decorate false false "www.example.com" none none = "http://www.example.com" ∧
    extractDomain "http://www.example.com" = "example.com" ∧
    "example.com" ≠ "www.example.com" :=
  ⟨by decide, by decide, by decide, by decide⟩

/-- C7, amended: for every hostname accepted by the validator's pattern
**that does not itself begin with `www.`**, and every decoration by an
`http://` or `https://` scheme, an optional `www.` prefix, an optional
`:port` suffix and an optional trailing `/path`, `extractDomain` of the
decorated string returns the hostname; `extractDomain` is total (it is a
plain function, mirroring the TypeScript `try/catch` that can never fire);
and `isValidShopifyDomain` rejects the empty string and every input whose
normalized form fails the pattern. -/
theorem C7_domain_normalizer (https www : Bool) (host : String)
    (port path : Option String)
    (hpat : matchesDomainPattern host = true)
    (hwww : ¬ ("www." : String).data <+: host.data) :
    extractDomain (decorate https www host port path) = host ∧
    isValidShopifyDomain "" = false ∧
    (∀ s, matchesDomainPattern (extractDomain s) = false →
      isValidShopifyDomain s = false) := by
  refine ⟨extractDomain_decorate https www host port path hpat hwww, by decide, ?_⟩
  intro s hs
  unfold isValidShopifyDomain
  split_ifs
  · rfl
  · exact hs

/-- C7, witness: the amended theorem applied to `example.com` decorated as
`https://www.example.com:8080/collections/all`. -/
theorem C7_domain_normalizer_witness :
    extractDomain
      (decorate true true "example.com" (some "8080") (some "collections/all")) =
      "example.com" ∧
    isValidShopifyDomain "" = false ∧
    (∀ s, matchesDomainPattern (extractDomain s) = false →
      isValidShopifyDomain s = false) :=
  C7_domain_normalizer true true "example.com" (some "8080")
    (some "collections/all") (by decide) (by decide)

/-- C9, counterexample: the streaming route's page URL appends a second
`?limit=250&page=N` query string to a base URL that already ends in
`?limit=250`, so it is not the canonical single-`?` form; and the
non-streaming scraper's page-1 URL carries no `page` parameter at all. -/
theorem C9_counterexample :
    streamPageUrl "example.com" 1 =
      "https://example.com/products.json?limit=250?limit=250&page=1" ∧
    streamPageUrl "example.com" 1 ≠
      "https://example.com/products.json?limit=250&page=1" ∧
    streamPageUrl "example.com" 2 =
      "https://example.com/products.json?limit=250?limit=250&page=2" ∧
    streamPageUrl "example.com" 2 ≠
      "https://example.com/products.json?limit=250&page=2" ∧
    nonStreamPageUrl "example.com" 1 = "https://example.com/products.json?limit=250" ∧
    nonStreamPageUrl "example.com" 1 ≠
      "https://example.com/products.json?limit=250&page=1" ∧
    nonStreamPageUrl "example.com" 2 =
      "https://example.com/products.json?limit=250&page=2" :=
  ⟨by decide, by decide, by decide, by decide, by decide, by decide, by decide⟩

/-- C9, amended: for every normalized domain `d`, the non-streaming scraper
requests `https://{d}/products.json?limit=250` for page 1 and the canonical
`https://{d}/products.json?limit=250&page=N` for every page `N ≥ 2`, while
the streaming route requests
`https://{d}/products.json?limit=250?limit=250&page=N` (the base URL with a
second `?limit=250&page=N` query string appended) for every page. -/
theorem C9_page_urls (d : String) (hd : extractDomain d = d) :
    nonStreamPageUrl d 1 = "https://" ++ d ++ "/products.json?limit=250" ∧
    (∀ n, 2 ≤ n → nonStreamPageUrl d n =
      "https://" ++ d ++ "/products.json?limit=250&page=" ++ toString n) ∧
    (∀ n, streamPageUrl d n =
      "https://" ++ d ++ "/products.json?limit=250?limit=250&page=" ++ toString n) := by
  have hb : buildProductsUrl (extractDomain d) =
      "https://" ++ d ++ "/products.json?limit=250" := by
    simp [buildProductsUrl, hd]
  refine ⟨?_, ?_, ?_⟩
  · unfold nonStreamPageUrl
    dsimp only
    rw [hb]
    simp
  · intro n hn
    have hn1 : ¬ n = 1 := by omega
    unfold nonStreamPageUrl
    dsimp only
    rw [hb, if_neg hn1, String.append_assoc ("https://" ++ d),
      show ("/products.json?limit=250" : String) ++ "&page=" =
        "/products.json?limit=250&page=" from by decide]
  · intro n
    unfold streamPageUrl
    dsimp only
    rw [hb, String.append_assoc ("https://" ++ d),
      show ("/products.json?limit=250" : String) ++ "?limit=250&page=" =
        "/products.json?limit=250?limit=250&page=" from by decide]

/-- C8: `convertToJsonl` yields one record per product, in order, and each
record's fields are exactly the spec's: `product_id` is the id rendered as a
string, `title` the title, `text` the HTML-stripped description (empty when
the description is empty/absent), `price` the first variant's price parsed
as a number with `0.0` when there is no first-variant price, `url` the
product URL, `image` the first image's `src` or `""`, `in_stock` true
exactly when some variant is available, `category` the product type, and
`tags` the tag list; a description `<p>Hello&nbsp;World</p>` yields the text
`Hello World`. -/
theorem C8_convertToJsonl (products : List ScrapedProduct) (p : ScrapedProduct) :
    (convertToJsonl products).length = products.length ∧
    (∀ i : Nat, (convertToJsonl products)[i]? = products[i]?.map toJsonlObject) ∧
    (toJsonlObject p).product_id = toString p.id ∧
    (toJsonlObject p).title = p.title ∧
    (p.body_html = "" → (toJsonlObject p).text = "") ∧
    (p.body_html ≠ "" → (toJsonlObject p).text = stripHtml p.body_html) ∧
    (p.body_html = "<p>Hello&nbsp;World</p>" → (toJsonlObject p).text = "Hello World") ∧
    (p.variants = [] → (toJsonlObject p).price = some 0) ∧
    (∀ v vs, p.variants = v :: vs → v.price ≠ "" →
      (toJsonlObject p).price = parseFloatModel v.price) ∧
    (∀ v vs, p.variants = v :: vs → v.price = "" → (toJsonlObject p).price = some 0) ∧
    (toJsonlObject p).url = p.url ∧
    (toJsonlObject p).image = (p.images.head?.map ScrapedImage.src).getD "" ∧
    ((toJsonlObject p).in_stock = true ↔ ∃ v ∈ p.variants, v.available = true) ∧
    (toJsonlObject p).category = p.product_type ∧
    (toJsonlObject p).tags = p.tags := by
  refine ⟨by simp [convertToJsonl], fun i => by simp [convertToJsonl, List.getElem?_map],
    rfl, jsOrEmpty_eq p.title, ?_, ?_, ?_, ?_, ?_, ?_, jsOrEmpty_eq p.url, ?_, ?_,
    jsOrEmpty_eq p.product_type, rfl⟩
  · intro h
    simp [toJsonlObject, h]
  · intro h
    simp [toJsonlObject, h]
  · intro h
    rw [show (toJsonlObject p).text =
      (if p.body_html = "" then "" else stripHtml p.body_html) from rfl, h]
    decide
  · intro h
    simp [toJsonlObject, h]
  · intro v vs hv hp
    simp [toJsonlObject, hv, hp]
  · intro v vs hv hp
    simp [toJsonlObject, hv, hp]
  · rcases himg : p.images with _ | ⟨img, rest⟩ <;> simp [toJsonlObject, himg, jsOrEmpty_eq]
  · simp [toJsonlObject, List.any_eq_true]

/-- C8, witness: the field theorem at a concrete product whose description
is `<p>Hello&nbsp;World</p>` and whose first variant costs `19.99`. -/
theorem C8_convertToJsonl_witness :
    (convertToJsonl [c8Product]).length = [c8Product].length ∧
    (∀ i : Nat, (convertToJsonl [c8Product])[i]? = [c8Product][i]?.map toJsonlObject) ∧
    (toJsonlObject c8Product).product_id = toString c8Product.id ∧
    (toJsonlObject c8Product).title = c8Product.title ∧
    (c8Product.body_html = "" → (toJsonlObject c8Product).text = "") ∧
    (c8Product.body_html ≠ "" →
      (toJsonlObject c8Product).text = stripHtml c8Product.body_html) ∧
    (c8Product.body_html = "<p>Hello&nbsp;World</p>" →
      (toJsonlObject c8Product).text = "Hello World") ∧
    (c8Product.variants = [] → (toJsonlObject c8Product).price = some 0) ∧
    (∀ v vs, c8Product.variants = v :: vs → v.price ≠ "" →
      (toJsonlObject c8Product).price = parseFloatModel v.price) ∧
    (∀ v vs, c8Product.variants = v :: vs → v.price = "" →
      (toJsonlObject c8Product).price = some 0) ∧
    (toJsonlObject c8Product).url = c8Product.url ∧
    (toJsonlObject c8Product).image =
      (c8Product.images.head?.map ScrapedImage.src).getD "" ∧
    ((toJsonlObject c8Product).in_stock = true ↔
      ∃ v ∈ c8Product.variants, v.available = true) ∧
    (toJsonlObject c8Product).category = c8Product.product_type ∧
    (toJsonlObject c8Product).tags = c8Product.tags :=
  C8_convertToJsonl [c8Product] c8Product

/-- C9, witness: the amended theorem at the normalized domain `example.com`. -/
theorem C9_page_urls_witness :
    nonStreamPageUrl "example.com" 1 =
      "https://" ++ "example.com" ++ "/products.json?limit=250" ∧
    (∀ n, 2 ≤ n → nonStreamPageUrl "example.com" n =
      "https://" ++ "example.com" ++ "/products.json?limit=250&page=" ++ toString n) ∧
    (∀ n, streamPageUrl "example.com" n =
      "https://" ++ "example.com" ++ "/products.json?limit=250?limit=250&page=" ++
        toString n) :=
  C9_page_urls "example.com" (by decide)

end AiSearch
